import Mathlib

/-!
# Reddit-Scraper: a shallow embedding of `main.go`

The program obtains an OAuth bearer token, pages through the hot listing of a
subreddit and, for every thread, pages through its comments.

Modelling conventions.

* A response body is represented by what `json.Unmarshal` makes of its text:
  `none` when the decoder rejects the text (it checks the whole text before it
  stores anything), `some v` for the JSON value `v` the text denotes.
* `http.NewRequest` parses the URL text it is given (`url.Parse`): it fails on a
  text with a control character before any `#` or with a malformed
  percent-escape in the path or the fragment, and the request it builds carries
  the parsed URL, whose text form escapes path and fragment anew
  (`parseURL`, `URL.String`, `newRequestURL`). The URL of the token request is a
  constant that is accepted and reads back unchanged.
* The server is a transcript: the list of the bodies which the successive calls
  of `client.Do` deliver, in order; a body in the transcript stands for a call
  of `client.Do` that returned a response with that body. Whether `client.Do`
  returns a response for a request that has been built is left to the
  environment (the transport, the network, the server). Every failure ends the
  process (`log.Fatalf`), so a run receives a sequence of responses, possibly
  followed by one failure; the failure of `client.Do` is the transcript having
  no body left.
* A failed type assertion or an index out of range is a runtime fault
  (`Outcome.panicked`); `log.Fatal`/`log.Fatalf` is `Outcome.exited`. The
  messages of the `log` package are not recorded.
* The global variable `accessToken` is passed as an argument.
-/

set_option linter.dupNamespace false

namespace RedditScraper

/-! ## Definitions -/

/-- A finite float64, given exactly as `mant * 2 ^ exp`. -/
structure Float64 where
  mant : Int
  exp : Int
deriving DecidableEq, Repr

/-- The integer part of a float64, rounding toward zero. -/
def Float64.trunc (f : Float64) : Int :=
  if 0 ≤ f.exp then f.mant * 2 ^ f.exp.toNat else Int.tdiv f.mant (2 ^ (-f.exp).toNat)

/-- Go's conversion `int64(f)`: truncation toward zero. When the truncated value
does not fit an int64 the language leaves the result to the implementation; the
model takes the amd64 result, the smallest int64. -/
def int64OfFloat64 (f : Float64) : Int :=
  if -(2 : Int) ^ 63 ≤ f.trunc ∧ f.trunc < (2 : Int) ^ 63 then f.trunc else -(2 : Int) ^ 63

/-- A JSON number literal, represented by the two readings the decoder takes of
it: `asFloat64` is `strconv.ParseFloat` (used when the target is an
`interface{}`; `none` when the literal is out of range), `asInt` is
`strconv.ParseInt` (used for an `int` field; `none` when the literal is not an
integer in range). -/
structure Number where
  asFloat64 : Option Float64
  asInt : Option Int
deriving DecidableEq, Repr

/-- A JSON document. The members of an object are kept in document order,
duplicates included. -/
inductive JSON where
  | null : JSON
  | bool (b : Bool) : JSON
  | num (n : Number) : JSON
  | str (s : String) : JSON
  | arr (items : List JSON) : JSON
  | obj (members : List (String × JSON)) : JSON

/-- A response body: `none` when the text is not valid JSON. -/
abbrev Body := Option JSON

/-- The member `key` of an object as the decoder sees it: members are stored in
document order, so a later duplicate replaces an earlier one. `none` when the
object has no such member. -/
def member (members : List (String × JSON)) (key : String) : Option JSON :=
  (members.reverse.find? (fun m => m.1 == key)).map (fun m => m.2)

/-- Indexing `m[key]` of a decoded `map[string]interface{}`: a missing key (also
of a nil map) gives the nil interface, as does a JSON null. -/
def mapIndex (members : List (String × JSON)) (key : String) : JSON :=
  match member members key with
  | some v => v
  | none => JSON.null

/-- The assertion `x.(map[string]interface{})`; `none` is the runtime fault. -/
def assertMap : JSON → Option (List (String × JSON))
  | JSON.obj members => some members
  | _ => none

/-- The assertion `x.([]interface{})`; `none` is the runtime fault. -/
def assertSlice : JSON → Option (List JSON)
  | JSON.arr items => some items
  | _ => none

/-- The assertion `x.(string)`; `none` is the runtime fault, or `ok == false`
in the two-valued form. -/
def assertString : JSON → Option String
  | JSON.str s => some s
  | _ => none

/-- The assertion `x.(float64)`. A number literal outside the float64 range
decodes to the nil interface, for which the assertion fails. -/
def assertFloat64 : JSON → Option Float64
  | JSON.num n => n.asFloat64
  | _ => none

/-- The statement `json.Unmarshal(body, &result)` for a fresh
`var result map[string]interface{}`: an object fills the map; invalid text, null
and every other value leave the map nil (the error is discarded). -/
def unmarshalMap : Body → List (String × JSON)
  | some (JSON.obj members) => members
  | _ => []

/-- The statement `json.Unmarshal(body, &result)` for a fresh
`var result []interface{}`: an array fills the slice; invalid text, null and
every other value leave the slice nil (the error is discarded). -/
def unmarshalSlice : Body → List JSON
  | some (JSON.arr items) => items
  | _ => []

/-- The verb-substitution of `fmt.Sprintf` on the characters of a format, for
string operands and the verb `%s`, the only verb of the formats in this
program. A `%s` without operand prints `%!s(MISSING)`; the program passes as
many operands as the format has verbs, and operands left over are not
modelled. -/
def sprintfChars : List Char → List String → List Char
  | '%' :: 's' :: fmt, a :: args => a.data ++ sprintfChars fmt args
  | '%' :: 's' :: fmt, [] => "%!s(MISSING)".data ++ sprintfChars fmt []
  | c :: fmt, args => c :: sprintfChars fmt args
  | [], _ => []

/-- The call `fmt.Sprintf(format, args...)` with string operands. -/
def sprintf (format : String) (args : List String) : String :=
  String.mk (sprintfChars format.data args)

/-- The token endpoint. -/
def AuthURL : String := "https://www.reddit.com/api/v1/access_token"

/-- Format of the hot-listing URL: subreddit, cursor. -/
def SubredditURL : String := "https://oauth.reddit.com/r/%s/hot?raw_json=1&limit=10&after=%s"

/-- Format of the comments URL: subreddit, thread id, cursor. -/
def CommentsURL : String := "https://oauth.reddit.com/r/%s/comments/%s?raw_json=1&limit=10&after=%s"

/-- The OAuth response record. -/
structure AccessToken where
  AccessToken : String
  TokenType : String
  ExpiresIn : Int
  Scope : String
deriving DecidableEq, Repr

/-- A thread (post). -/
structure Thread where
  ID : String
  Title : String
  URL : String
deriving DecidableEq, Repr

/-- A comment. -/
structure Comment where
  ID : String
  Body : String
  Author : String
  Created : Int
deriving DecidableEq, Repr

/-- The configuration read with `os.Getenv`. -/
structure Env where
  CLIENT_ID : String
  CLIENT_SECRET : String
  USERNAME : String
  PASSWORD : String
  USER_AGENT : String
deriving DecidableEq, Repr

/-- An HTTP request as the program builds it. `basicAuth` holds the operands of
`SetBasicAuth`. -/
structure Request where
  method : String
  url : String
  basicAuth : Option (String × String)
  headers : List (String × String)
  body : String
deriving DecidableEq, Repr

/-- How a call ends. -/
inductive Outcome (α : Type) where
  | returned (a : α) : Outcome α
  | panicked : Outcome α
  | exited : Outcome α
deriving DecidableEq, Repr

/-- The trace of a call: the requests it built, oldest first (when the call
ends in `Outcome.exited` for want of a response, the last one is the request
that could not be sent), the bodies of the transcript it did not consume, and
how it ended. -/
structure Run (α : Type) where
  sent : List Request
  rest : List Body
  outcome : Outcome α

/-- Case folding of one character of a member name, as the decoder's
case-insensitive match does it: letters fold to upper case, and so do the two
characters outside ASCII that fold to an ASCII letter, U+017F (long s) and
U+212A (Kelvin sign). Every other character folds to a character outside ASCII
and is left as it is, which decides a match against an ASCII name the same
way. -/
def foldRune (c : Char) : Char :=
  if 97 ≤ c.toNat ∧ c.toNat ≤ 122 then Char.ofNat (c.toNat - 32)
  else if c.toNat = 0x17F then 'S'
  else if c.toNat = 0x212A then 'K'
  else c

/-- The folded form of a member name. -/
def foldName (s : String) : String :=
  String.mk (s.data.map foldRune)

/-- The fields of `AccessToken`, in declaration order. -/
inductive Field where
  | accessToken : Field
  | tokenType : Field
  | expiresIn : Field
  | scope : Field
deriving DecidableEq, Repr

/-- The `json` tag of a field. -/
def Field.tag : Field → String
  | Field.accessToken => "access_token"
  | Field.tokenType => "token_type"
  | Field.expiresIn => "expires_in"
  | Field.scope => "scope"

/-- All fields, in declaration order. -/
def Field.all : List Field :=
  [Field.accessToken, Field.tokenType, Field.expiresIn, Field.scope]

/-- The field a member name decodes into: the decoder prefers the field whose
tag is the name exactly and otherwise takes the first field whose tag matches
it case-insensitively; a name that matches no field is skipped. -/
def findField (key : String) : Option Field :=
  match Field.all.find? (fun f => f.tag == key) with
  | some f => some f
  | none => Field.all.find? (fun f => foldName f.tag == foldName key)

/-- The state of a decode into `AccessToken`: the record so far and whether a
type error has been saved. -/
structure Decoded where
  token : AccessToken
  err : Bool
deriving DecidableEq, Repr

/-- Storing a value into a string field: a string is stored, null leaves the
field as it is, any other value saves a type error and is skipped. -/
def storeString (set : String → AccessToken) (d : Decoded) : JSON → Decoded
  | JSON.str s => { d with token := set s }
  | JSON.null => d
  | _ => { d with err := true }

/-- Storing a value into the `int` field: an integer literal in range is stored,
null leaves the field as it is, any other value saves a type error and is
skipped. -/
def storeInt (set : Int → AccessToken) (d : Decoded) : JSON → Decoded
  | JSON.num n =>
    match n.asInt with
    | some i => { d with token := set i }
    | none => { d with err := true }
  | JSON.null => d
  | _ => { d with err := true }

/-- Decoding one member of the object into the record. -/
def storeMember (d : Decoded) (m : String × JSON) : Decoded :=
  match findField m.1 with
  | none => d
  | some Field.accessToken => storeString (fun s => { d.token with AccessToken := s }) d m.2
  | some Field.tokenType => storeString (fun s => { d.token with TokenType := s }) d m.2
  | some Field.expiresIn => storeInt (fun i => { d.token with ExpiresIn := i }) d m.2
  | some Field.scope => storeString (fun s => { d.token with Scope := s }) d m.2

/-- The zero value of `AccessToken`. -/
def zeroToken : AccessToken :=
  { AccessToken := "", TokenType := "", ExpiresIn := 0, Scope := "" }

/-- The call `json.Unmarshal(body, &token)` for a fresh `var token AccessToken`:
invalid text stores nothing and is an error, null stores nothing, an object is
decoded member by member in document order (a type error is saved and decoding
goes on), any other value is a type error. -/
def unmarshalToken : Body → Decoded
  | none => { token := zeroToken, err := true }
  | some JSON.null => { token := zeroToken, err := false }
  | some (JSON.obj members) => members.foldl storeMember { token := zeroToken, err := false }
  | some _ => { token := zeroToken, err := true }

/-- The request of `getAccessToken` (lines 64-72). Its URL is the constant
`AuthURL`, which `http.NewRequest` accepts and which reads back unchanged. -/
def tokenRequest (env : Env) : Request :=
  { method := "POST"
    url := AuthURL
    basicAuth := some (env.CLIENT_ID, env.CLIENT_SECRET)
    headers := [("User-Agent", env.USER_AGENT),
                ("Content-Type", "application/x-www-form-urlencoded")]
    body := sprintf "grant_type=password&username=%s&password=%s" [env.USERNAME, env.PASSWORD] }

/-- The function `getAccessToken`: one POST; the error of the decode is
discarded and the `AccessToken` field of the record is returned. -/
def getAccessToken (env : Env) : List Body → Run String
  | [] => { sent := [tokenRequest env], rest := [], outcome := Outcome.exited }
  | body :: rest =>
    { sent := [tokenRequest env], rest := rest,
      outcome := Outcome.returned (unmarshalToken body).token.AccessToken }

/-- The call `strings.Cut(s, sep)` for a separator of one character: the text
before the first `sep`, the text after it, and whether `sep` occurs. -/
def cutChar (sep : Char) : List Char → List Char × List Char × Bool
  | [] => ([], [], false)
  | c :: rest =>
    if c = sep then ([], rest, true)
    else (c :: (cutChar sep rest).1, (cutChar sep rest).2.1, (cutChar sep rest).2.2)

/-- A control character in the sense of `net/url`: a byte below the space, or
DEL. -/
def isCTL (c : Char) : Bool :=
  c.toNat < 32 || c.toNat == 127

/-- The bytes of the UTF-8 encoding of a character. -/
def utf8Bytes (c : Char) : List Nat :=
  if c.toNat < 128 then [c.toNat]
  else if c.toNat < 2048 then [192 + c.toNat / 64, 128 + c.toNat % 64]
  else if c.toNat < 65536 then
    [224 + c.toNat / 4096, 128 + c.toNat / 64 % 64, 128 + c.toNat % 64]
  else [240 + c.toNat / 262144, 128 + c.toNat / 4096 % 64, 128 + c.toNat / 64 % 64,
    128 + c.toNat % 64]

/-- The bytes of a text. -/
def toBytes (l : List Char) : List Nat :=
  l.flatMap utf8Bytes

/-- Whether a byte is one of the characters of `chars`. -/
def isOneOf (chars : String) (b : Nat) : Bool :=
  chars.data.any (fun c => c.toNat == b)

/-- The function `ishex` of `net/url`. -/
def ishex (b : Nat) : Bool :=
  (48 ≤ b && b ≤ 57) || (97 ≤ b && b ≤ 102) || (65 ≤ b && b ≤ 70)

/-- The function `unhex` of `net/url`. -/
def unhex (b : Nat) : Nat :=
  if 48 ≤ b ∧ b ≤ 57 then b - 48
  else if 97 ≤ b ∧ b ≤ 102 then b - 87
  else if 65 ≤ b ∧ b ≤ 70 then b - 55
  else 0

/-- The parts of a URL that `net/url` escapes differently. -/
inductive Encoding where
  | path : Encoding
  | fragment : Encoding
deriving DecidableEq, Repr

/-- The function `shouldEscape` of `net/url` for the path and the fragment. -/
def shouldEscape (b : Nat) (mode : Encoding) : Bool :=
  if (97 ≤ b && b ≤ 122) || (65 ≤ b && b ≤ 90) || (48 ≤ b && b ≤ 57) then false
  else if isOneOf "-_.~" b then false
  else if isOneOf "$&+,/:;=?@" b then
    match mode with
    | Encoding.path => b == 63
    | Encoding.fragment => false
  else if mode = Encoding.fragment ∧ isOneOf "!()*" b then false
  else true

/-- The function `unescape` of `net/url` for the path and the fragment, byte by
byte: `%XX` is the byte XX, and a `%` not followed by two hexadecimal digits is
an error (`none`). `skip` counts the digits of an escape still to be passed
over. -/
def unescapeBytesFrom : Nat → List Nat → Option (List Nat)
  | _, [] => some []
  | skip + 1, _ :: rest => unescapeBytesFrom skip rest
  | 0, b :: rest =>
    if b = 37 then
      match rest with
      | h1 :: h2 :: _ =>
        if ishex h1 && ishex h2 then
          (unescapeBytesFrom 2 rest).map (fun t => (unhex h1 * 16 + unhex h2) :: t)
        else none
      | _ => none
    else (unescapeBytesFrom 0 rest).map (fun t => b :: t)

/-- The function `unescape` of `net/url` on a text. -/
def unescape (s : List Char) : Option (List Nat) :=
  unescapeBytesFrom 0 (toBytes s)

/-- An upper-case hexadecimal digit. -/
def upperhex (n : Nat) : Char :=
  if n < 10 then Char.ofNat (48 + n) else Char.ofNat (55 + n)

/-- The function `escape` of `net/url` for the path and the fragment: a byte
that should be escaped becomes `%XX`. -/
def escape (bs : List Nat) (mode : Encoding) : List Char :=
  bs.flatMap (fun b =>
    if shouldEscape b mode then ['%', upperhex (b / 16), upperhex (b % 16)]
    else [Char.ofNat b])

/-- The function `validEncoded` of `net/url`. -/
def validEncoded (s : List Char) (mode : Encoding) : Bool :=
  (toBytes s).all (fun b => isOneOf "!$&\x27()*+,;=:@[]%" b || !shouldEscape b mode)

/-- The fields of a parsed `url.URL` which the URLs of this program set; scheme
and host are those of the constant origin. -/
structure URL where
  Path : List Nat
  RawPath : List Char
  ForceQuery : Bool
  RawQuery : List Char
  Fragment : List Nat
  RawFragment : List Char
deriving DecidableEq, Repr

/-- The raw form kept next to an unescaped part (`setPath`, `setFragment`):
empty when the default escaping of the part gives the text back. -/
def rawHint (text : List Char) (part : List Nat) (mode : Encoding) : List Char :=
  if text = escape part mode then [] else text

/-- The escaped form of a part (`EscapedPath`, `EscapedFragment`): the raw form
when there is one and it is a valid encoding of the part, else the default
escaping. -/
def escapedPart (part : List Nat) (raw : List Char) (mode : Encoding) : List Char :=
  if raw ≠ [] ∧ validEncoded raw mode = true ∧ unescape raw = some part then raw
  else if mode = Encoding.path ∧ part = [42] then ['*']
  else escape part mode

/-- The origin of the URLs of the two fetchers. -/
def origin : String := "https://oauth.reddit.com"

/-- The text after the origin, when the text starts with the origin followed by
a slash. -/
def afterOrigin (u : List Char) : Option (List Char) :=
  if (origin.data ++ ['/']).isPrefixOf u then some (u.drop origin.data.length) else none

/-- The function `url.Parse` on the URL texts of this program, which start with
the constant origin `https://oauth.reddit.com/` (scheme `https`, host
`oauth.reddit.com`): the fragment is cut off at the first `#`; a control
character before it is an error; the query is cut off at the first `?`; path and
fragment are unescaped, a malformed escape being an error. A text that does not
start with the origin is outside the model (`none`). -/
def parseURL (rawURL : String) : Option URL :=
  let u := (cutChar '#' rawURL.data).1
  let frag := (cutChar '#' rawURL.data).2.1
  if u.any isCTL then none
  else
    match afterOrigin u with
    | none => none
    | some rest =>
      let force : Bool := rest.getLast? == some '?' && rest.count '?' == 1
      let pathText := if force then rest.dropLast else (cutChar '?' rest).1
      let query := if force then [] else (cutChar '?' rest).2.1
      match unescape pathText with
      | none => none
      | some path =>
        if frag = [] then
          some { Path := path, RawPath := rawHint pathText path Encoding.path,
                 ForceQuery := force, RawQuery := query, Fragment := [], RawFragment := [] }
        else
          match unescape frag with
          | none => none
          | some fragment =>
            some { Path := path, RawPath := rawHint pathText path Encoding.path,
                   ForceQuery := force, RawQuery := query, Fragment := fragment,
                   RawFragment := rawHint frag fragment Encoding.fragment }

/-- The method `String` of a parsed URL of this program. -/
def URL.String (u : URL) : String :=
  String.mk (origin.data ++ escapedPart u.Path u.RawPath Encoding.path ++
    (if u.ForceQuery = true ∨ u.RawQuery ≠ [] then '?' :: u.RawQuery else []) ++
    (if u.Fragment ≠ [] then '#' :: escapedPart u.Fragment u.RawFragment Encoding.fragment
     else []))

/-- The URL of the request which `http.NewRequest("GET", url, nil)` builds, in
text form; `none` when the call fails. -/
def newRequestURL (rawURL : String) : Option String :=
  (parseURL rawURL).map URL.String

/-- The GET request of the two fetchers once `http.NewRequest` has parsed its
URL (lines 98-103, 147-152); `url` is the parsed URL in text form. -/
def getRequest (userAgent accessToken url : String) : Request :=
  { method := "GET"
    url := url
    basicAuth := none
    headers := [("Authorization", "Bearer " ++ accessToken), ("User-Agent", userAgent)]
    body := "" }

/-- The body of the range loop of `getSubredditThreads` for one item (lines
118-123); `none` is a runtime fault. -/
def threadOfItem (item : JSON) : Option Thread :=
  match assertMap item with
  | none => none
  | some m =>
    match assertMap (mapIndex m "data") with
    | none => none
    | some data =>
      match assertString (mapIndex data "id"), assertString (mapIndex data "title"),
        assertString (mapIndex data "url") with
      | some id, some title, some url => some { ID := id, Title := title, URL := url }
      | _, _, _ => none

/-- The range loop of `getSubredditThreads` (lines 117-124) over the children:
every item is appended to `threads`; `none` is a runtime fault. -/
def appendThreads (threads : List Thread) : List JSON → Option (List Thread)
  | [] => some threads
  | item :: items =>
    match threadOfItem item with
    | none => none
    | some t => appendThreads (threads ++ [t]) items

/-- The loop of `getSubredditThreads` (lines 95-132), entered with the threads
collected so far and the current cursor. When `http.NewRequest` rejects the URL
the process exits without a request (lines 99-101); when the transcript has no
body left the request is built but cannot be sent (lines 107-109). -/
def threadsLoop (userAgent accessToken subreddit : String) :
    List Body → List Thread → String → Run (List Thread)
  | [], _, after =>
    match newRequestURL (sprintf SubredditURL [subreddit, after]) with
    | none => { sent := [], rest := [], outcome := Outcome.exited }
    | some url =>
      { sent := [getRequest userAgent accessToken url], rest := [], outcome := Outcome.exited }
  | body :: rest, threads, after =>
    match newRequestURL (sprintf SubredditURL [subreddit, after]) with
    | none => { sent := [], rest := body :: rest, outcome := Outcome.exited }
    | some url =>
      let req := getRequest userAgent accessToken url
      let result := unmarshalMap body
      match assertMap (mapIndex result "data") with
      | none => { sent := [req], rest := rest, outcome := Outcome.panicked }
      | some data =>
        match assertSlice (mapIndex data "children") with
        | none => { sent := [req], rest := rest, outcome := Outcome.panicked }
        | some children =>
          match appendThreads threads children with
          | none => { sent := [req], rest := rest, outcome := Outcome.panicked }
          | some threads1 =>
            match assertMap (mapIndex result "data") with
            | none => { sent := [req], rest := rest, outcome := Outcome.panicked }
            | some data1 =>
              match assertString (mapIndex data1 "after") with
              | none => { sent := [req], rest := rest, outcome := Outcome.returned threads1 }
              | some afterVal =>
                if afterVal = "" then
                  { sent := [req], rest := rest, outcome := Outcome.returned threads1 }
                else
                  let r := threadsLoop userAgent accessToken subreddit rest threads1 afterVal
                  { r with sent := req :: r.sent }

/-- The function `getSubredditThreads`. -/
def getSubredditThreads (userAgent accessToken subreddit : String) (transcript : List Body) :
    Run (List Thread) :=
  threadsLoop userAgent accessToken subreddit transcript [] ""

/-- The body of the range loop of `getComments` for one item (lines 168-174);
`none` is a runtime fault. -/
def commentOfItem (item : JSON) : Option Comment :=
  match assertMap item with
  | none => none
  | some m =>
    match assertMap (mapIndex m "data") with
    | none => none
    | some data =>
      match assertString (mapIndex data "id"), assertString (mapIndex data "body"),
        assertString (mapIndex data "author"), assertFloat64 (mapIndex data "created_utc") with
      | some id, some body, some author, some created =>
        some { ID := id, Body := body, Author := author, Created := int64OfFloat64 created }
      | _, _, _, _ => none

/-- The range loop of `getComments` (lines 167-175) over the children: every
item is appended to `comments`; `none` is a runtime fault. -/
def appendComments (comments : List Comment) : List JSON → Option (List Comment)
  | [] => some comments
  | item :: items =>
    match commentOfItem item with
    | none => none
    | some c => appendComments (comments ++ [c]) items

/-- The expression `result[1].(map[string]interface{})["data"].(map[string]interface{})`
(lines 167 and 179); `none` is a runtime fault: index out of range or a failed
assertion. -/
def listingData (result : List JSON) : Option (List (String × JSON)) :=
  match result.get? 1 with
  | none => none
  | some listing =>
    match assertMap listing with
    | none => none
    | some m => assertMap (mapIndex m "data")

/-- The guarded block of `getComments` (lines 166-176). -/
def parseComments (comments : List Comment) (result : List JSON) : Option (List Comment) :=
  if result.length > 1 then
    match listingData result with
    | none => none
    | some data =>
      match assertSlice (mapIndex data "children") with
      | none => none
      | some children => appendComments comments children
  else some comments

/-- The loop of `getComments` (lines 144-184), entered with the comments
collected so far and the current cursor. When `http.NewRequest` rejects the URL
the process exits without a request (lines 148-150); when the transcript has no
body left the request is built but cannot be sent (lines 156-158). -/
def commentsLoop (userAgent accessToken subreddit threadID : String) :
    List Body → List Comment → String → Run (List Comment)
  | [], _, after =>
    match newRequestURL (sprintf CommentsURL [subreddit, threadID, after]) with
    | none => { sent := [], rest := [], outcome := Outcome.exited }
    | some url =>
      { sent := [getRequest userAgent accessToken url], rest := [], outcome := Outcome.exited }
  | body :: rest, comments, after =>
    match newRequestURL (sprintf CommentsURL [subreddit, threadID, after]) with
    | none => { sent := [], rest := body :: rest, outcome := Outcome.exited }
    | some url =>
      let req := getRequest userAgent accessToken url
      let result := unmarshalSlice body
      match parseComments comments result with
      | none => { sent := [req], rest := rest, outcome := Outcome.panicked }
      | some comments1 =>
        match listingData result with
        | none => { sent := [req], rest := rest, outcome := Outcome.panicked }
        | some data =>
          match assertString (mapIndex data "after") with
          | none => { sent := [req], rest := rest, outcome := Outcome.returned comments1 }
          | some afterVal =>
            if afterVal = "" then
              { sent := [req], rest := rest, outcome := Outcome.returned comments1 }
            else
              let r := commentsLoop userAgent accessToken subreddit threadID rest comments1
                afterVal
              { r with sent := req :: r.sent }

/-- The function `getComments`. -/
def getComments (userAgent accessToken subreddit threadID : String) (transcript : List Body) :
    Run (List Comment) :=
  commentsLoop userAgent accessToken subreddit threadID transcript [] ""

/-- The trace of the program: the requests built, the texts written to standard
output, the bodies not consumed, and how the process ended. -/
structure MainRun where
  sent : List Request
  stdout : List String
  rest : List Body
  outcome : Outcome Unit

/-- The loop of `main` over the threads (lines 204-212). -/
def printThreads (userAgent accessToken subreddit : String) : List Thread → List Body → MainRun
  | [], pending => { sent := [], stdout := [], rest := pending, outcome := Outcome.returned () }
  | thread :: threads, pending =>
    let title := sprintf "Thread: %s (ID: %s)\n" [thread.Title, thread.ID]
    let r := getComments userAgent accessToken subreddit thread.ID pending
    match r.outcome with
    | Outcome.panicked =>
      { sent := r.sent, stdout := [title], rest := r.rest, outcome := Outcome.panicked }
    | Outcome.exited =>
      { sent := r.sent, stdout := [title], rest := r.rest, outcome := Outcome.exited }
    | Outcome.returned comments =>
      let lines := comments.map (fun c => sprintf "Comment by %s: %s\n" [c.Author, c.Body])
      let k := printThreads userAgent accessToken subreddit threads r.rest
      { sent := r.sent ++ k.sent, stdout := title :: lines ++ "------\n" :: k.stdout,
        rest := k.rest, outcome := k.outcome }

/-- The function `loadEnv`. `dotenv` is the environment after `godotenv.Load`,
or `none` when loading the file fails. -/
def loadEnv (dotenv : Option Env) : Outcome Env :=
  match dotenv with
  | none => Outcome.exited
  | some env => Outcome.returned env

/-- The function `main`. `dotenv` is the environment after `godotenv.Load`, or
`none` when loading the file fails. -/
def main (dotenv : Option Env) (transcript : List Body) : MainRun :=
  match loadEnv dotenv with
  | Outcome.exited => { sent := [], stdout := [], rest := transcript, outcome := Outcome.exited }
  | Outcome.panicked =>
    { sent := [], stdout := [], rest := transcript, outcome := Outcome.panicked }
  | Outcome.returned env =>
    let t := getAccessToken env transcript
    match t.outcome with
    | Outcome.panicked => { sent := t.sent, stdout := [], rest := t.rest, outcome := Outcome.panicked }
    | Outcome.exited => { sent := t.sent, stdout := [], rest := t.rest, outcome := Outcome.exited }
    | Outcome.returned accessToken =>
      if accessToken = "" then
        { sent := t.sent, stdout := [], rest := t.rest, outcome := Outcome.exited }
      else
        let subreddit := "Home"
        let r := getSubredditThreads env.USER_AGENT accessToken subreddit t.rest
        match r.outcome with
        | Outcome.panicked =>
          { sent := t.sent ++ r.sent, stdout := [], rest := r.rest, outcome := Outcome.panicked }
        | Outcome.exited =>
          { sent := t.sent ++ r.sent, stdout := [], rest := r.rest, outcome := Outcome.exited }
        | Outcome.returned threads =>
          let k := printThreads env.USER_AGENT accessToken subreddit threads r.rest
          { sent := t.sent ++ r.sent ++ k.sent, stdout := k.stdout, rest := k.rest,
            outcome := k.outcome }

/-- A listing object: an object whose `data` member is an object with an array
member `children`; `after` is its `data.after` member, `none` when absent. -/
def IsListing (listing : JSON) (children : List JSON) (after : Option JSON) : Prop :=
  ∃ ms d, listing = JSON.obj ms ∧ member ms "data" = some (JSON.obj d) ∧
    member d "children" = some (JSON.arr children) ∧ member d "after" = after

/-- A child that denotes the thread `t`: an object whose `data` member is an
object with string members `id`, `title` and `url`, the fields of `t`. -/
def IsThreadChild (child : JSON) (t : Thread) : Prop :=
  ∃ m d, child = JSON.obj m ∧ member m "data" = some (JSON.obj d) ∧
    member d "id" = some (JSON.str t.ID) ∧ member d "title" = some (JSON.str t.Title) ∧
    member d "url" = some (JSON.str t.URL)

/-- A child that denotes the comment `c`: an object whose `data` member is an
object with string members `id`, `body`, `author` and a numeric member
`created_utc`, whose conversion to int64 is `c.Created`. -/
def IsCommentChild (child : JSON) (c : Comment) : Prop :=
  ∃ m d n f, child = JSON.obj m ∧ member m "data" = some (JSON.obj d) ∧
    member d "id" = some (JSON.str c.ID) ∧ member d "body" = some (JSON.str c.Body) ∧
    member d "author" = some (JSON.str c.Author) ∧
    member d "created_utc" = some (JSON.num n) ∧ n.asFloat64 = some f ∧
    c.Created = int64OfFloat64 f

/-- A well-formed thread-listing response: a listing whose children denote the
threads `ts`, in order. -/
def IsThreadPage (body : Body) (ts : List Thread) (after : Option JSON) : Prop :=
  ∃ listing children, body = some listing ∧ IsListing listing children after ∧
    List.Forall₂ IsThreadChild children ts

/-- A well-formed comments response: an array whose element 1 is a listing
whose children denote the comments `cs`, in order. -/
def IsCommentsPage (body : Body) (cs : List Comment) (after : Option JSON) : Prop :=
  ∃ items listing children, body = some (JSON.arr items) ∧ items.get? 1 = some listing ∧
    IsListing listing children after ∧ List.Forall₂ IsCommentChild children cs

/-- The cursor a page hands on: its `after` when that is a non-empty string;
pagination stops when it is absent, not a string, or empty. -/
def nextCursor : Option JSON → Option String
  | some (JSON.str a) => if a = "" then none else some a
  | _ => none

/-- The URL text of the hot listing of subreddit `s` at cursor `c`. -/
def threadsURL (s c : String) : String :=
  "https://oauth.reddit.com/r/" ++ s ++ "/hot?raw_json=1&limit=10&after=" ++ c

/-- The URL text of the comments of thread `t` of subreddit `s` at cursor `c`. -/
def commentsURL (s t c : String) : String :=
  "https://oauth.reddit.com/r/" ++ s ++ "/comments/" ++ t ++ "?raw_json=1&limit=10&after=" ++ c

/-- A thread child with the given id, title and url. -/
def sampleThreadChild (id title url : String) : JSON :=
  JSON.obj [("kind", JSON.str "t3"),
    ("data", JSON.obj [("id", JSON.str id), ("title", JSON.str title), ("url", JSON.str url)])]

/-- A listing with the given children and `after` member. -/
def sampleListing (children : List JSON) (after : JSON) : JSON :=
  JSON.obj [("kind", JSON.str "Listing"),
    ("data", JSON.obj [("after", after), ("children", JSON.arr children)])]

/-- A listing without `after` member. -/
def sampleListingNoAfter (children : List JSON) : JSON :=
  JSON.obj [("kind", JSON.str "Listing"), ("data", JSON.obj [("children", JSON.arr children)])]

/-- A configuration. -/
def sampleEnv : Env :=
  { CLIENT_ID := "id", CLIENT_SECRET := "secret", USERNAME := "u", PASSWORD := "p",
    USER_AGENT := "ua" }

/-- The integer `n` as a number literal. -/
def sampleInt (n : Int) : Number :=
  { asFloat64 := some { mant := n, exp := 0 }, asInt := some n }

/-- The members of the data of a comment child, `replies` left out. -/
def sampleCommentData (id body author : String) (created : Int) : List (String × JSON) :=
  [("id", JSON.str id), ("body", JSON.str body), ("author", JSON.str author),
    ("created_utc", JSON.num (sampleInt created))]

/-- A comment child with the given fields; `replies` is its `replies` member,
`none` for a child without that member. -/
def sampleCommentChild (id body author : String) (created : Int) (replies : Option JSON) : JSON :=
  JSON.obj [("kind", JSON.str "t1"),
    ("data", JSON.obj (sampleCommentData id body author created ++
      match replies with
      | some r => [("replies", r)]
      | none => []))]

/-- A child of kind `more`: it has no body and no author. -/
def sampleMoreChild : JSON :=
  JSON.obj [("kind", JSON.str "more"),
    ("data", JSON.obj [("id", JSON.str "m1"), ("count", JSON.num (sampleInt 3)),
      ("children", JSON.arr [JSON.str "x", JSON.str "y"])])]

/-- A malformed thread-listing response: the body is no listing object (its
top-level `data` is not an object, or `data.children` is not an array), or some
child lacks an object `data` with string `id`, `title` and `url`. -/
def ThreadPageMalformed (body : Body) : Prop :=
  (∀ listing children after, body = some listing → ¬ IsListing listing children after) ∨
  (∃ listing children after, body = some listing ∧ IsListing listing children after ∧
    ∃ c ∈ children, ∀ t, ¬ IsThreadChild c t)

/-- A malformed comments response: an array whose element 1 is no listing
object, or has a child that lacks a string `id`, `body`, `author` or a numeric
`created_utc`. -/
def CommentsPageMalformed (body : Body) : Prop :=
  ∃ items listing, body = some (JSON.arr items) ∧ items.get? 1 = some listing ∧
    ((∀ children after, ¬ IsListing listing children after) ∨
      (∃ children after, IsListing listing children after ∧
        ∃ c ∈ children, ∀ x, ¬ IsCommentChild c x))

/-- A listing served to both fetchers: the post element put in front of it for
the comments endpoint, its children and `after` member, and the threads and the
comments its children denote. -/
structure SharedPage where
  post : JSON
  listing : JSON
  children : List JSON
  after : Option JSON
  threads : List Thread
  comments : List Comment

/-- The listing is well formed for both fetchers. -/
def SharedPage.WellFormed (x : SharedPage) : Prop :=
  IsListing x.listing x.children x.after ∧ List.Forall₂ IsThreadChild x.children x.threads ∧
    List.Forall₂ IsCommentChild x.children x.comments

/-- The response of the listing endpoint for a shared page. -/
def SharedPage.threadsBody (x : SharedPage) : Body := some x.listing

/-- The response of the comments endpoint for a shared page: `[post, listing]`. -/
def SharedPage.commentsBody (x : SharedPage) : Body := some (JSON.arr [x.post, x.listing])

/-- Two children that differ at most in the `replies` member of their data (and
outside their data). -/
def SameButReplies (c c1 : JSON) : Prop :=
  ∃ m d m1 d1, c = JSON.obj m ∧ member m "data" = some (JSON.obj d) ∧
    c1 = JSON.obj m1 ∧ member m1 "data" = some (JSON.obj d1) ∧
    ∀ k, k ≠ "replies" → member d k = member d1 k

/-- The bearer string `getAccessToken` takes from a body: for an object, the
value of the last member whose name matches `access_token` (exactly or after
case folding) and whose value is a string; the empty string when there is none
and for every body that is not an object. -/
def bearerOf : Body → String
  | some (JSON.obj members) =>
    ((members.filterMap (fun m =>
      if foldName m.1 = foldName "access_token" then assertString m.2 else none)).getLast?).getD ""
  | _ => ""

/-- The value of a hexadecimal digit. -/
def hexVal (c : Char) : Option Nat :=
  if 48 ≤ c.toNat ∧ c.toNat ≤ 57 then some (c.toNat - 48)
  else if 97 ≤ c.toNat ∧ c.toNat ≤ 102 then some (c.toNat - 87)
  else if 65 ≤ c.toNat ∧ c.toNat ≤ 70 then some (c.toNat - 55)
  else none

/-- Decoding of a name or value of a form, character by character: `+` is a
space, `%XX` is the character with code XX, a `%` not followed by two
hexadecimal digits stays. `skip` counts the digits of an escape still to be
passed over. -/
def unescapeFrom : Nat → List Char → List Char
  | _, [] => []
  | skip + 1, _ :: rest => unescapeFrom skip rest
  | 0, c :: rest =>
    if c = '+' then ' ' :: unescapeFrom 0 rest
    else if c = '%' then
      match rest with
      | a :: b :: _ =>
        match hexVal a, hexVal b with
        | some x, some y => Char.ofNat (16 * x + y) :: unescapeFrom 2 rest
        | _, _ => '%' :: unescapeFrom 0 rest
      | _ => '%' :: unescapeFrom 0 rest
    else c :: unescapeFrom 0 rest

/-- Decoding of a name or value of a form. -/
def unescapeChars (l : List Char) : List Char :=
  unescapeFrom 0 l

/-- The pieces of a form body between its `&` separators. -/
def splitAmp : List Char → List (List Char)
  | [] => [[]]
  | c :: rest =>
    if c = '&' then [] :: splitAmp rest
    else
      match splitAmp rest with
      | piece :: pieces => (c :: piece) :: pieces
      | [] => [[c]]

/-- A piece cut at its first `=`: name and value (the value is empty when there
is no `=`). -/
def cutEq : List Char → List Char × List Char
  | [] => ([], [])
  | c :: rest =>
    if c = '=' then ([], rest)
    else ((c :: (cutEq rest).1), (cutEq rest).2)

/-- The name/value pair of a piece: the piece is cut at its first `=` and both
parts are decoded. -/
def decodePiece (piece : List Char) : String × String :=
  (String.mk (unescapeChars (cutEq piece).1), String.mk (unescapeChars (cutEq piece).2))

/-- Decoding of an `application/x-www-form-urlencoded` body into its name/value
pairs, in order, as the URL standard parses such a body: split at `&`, drop
empty pieces, cut each piece at its first `=`, decode name and value. -/
def decodeForm (body : String) : List (String × String) :=
  ((splitAmp body.data).filter (fun piece => !piece.isEmpty)).map decodePiece

/-- The characters a form decoder does not take literally when they stand in a
value: the separator `&` and the escapes `+` and `%`. -/
def formPlain (s : String) : Prop :=
  ∀ c ∈ s.data, c ≠ '&' ∧ c ≠ '+' ∧ c ≠ '%'

instance (s : String) : Decidable (formPlain s) := by
  unfold formPlain; infer_instance

/-- A first thread page: two children, cursor `c1`. -/
def samplePage1 : Body :=
  some (sampleListing [sampleThreadChild "1" "a" "u1", sampleThreadChild "2" "b" "u2"]
    (JSON.str "c1"))

/-- A last thread page: one child, no `after` member. -/
def samplePage2 : Body :=
  some (sampleListingNoAfter [sampleThreadChild "3" "c" "u3"])

/-- A first comments page: one comment with nested replies, cursor `c1`. -/
def sampleCommentsPage1 : Body :=
  some (JSON.arr [JSON.null,
    sampleListing [sampleCommentChild "k1" "hello" "ann" 1700000000
      (some (sampleListing [sampleCommentChild "k9" "nested" "bob" 1700000001 none] JSON.null))]
      (JSON.str "c1")])

/-- A last comments page: one comment, `after` null. -/
def sampleCommentsPage2 : Body :=
  some (JSON.arr [JSON.null,
    sampleListing [sampleCommentChild "k2" "bye" "cid" 1700000002 (some (JSON.str ""))]
      JSON.null])

/-- A thread-listing response whose `data` is a string. -/
def sampleBadThreadPage : Body :=
  some (JSON.obj [("kind", JSON.str "Listing"), ("data", JSON.str "oops")])

/-- A comments response whose listing ends with a child of kind `more`. -/
def sampleBadCommentsPage : Body :=
  some (JSON.arr [JSON.null,
    sampleListing [sampleCommentChild "k3" "text" "dan" 1700000003 none, sampleMoreChild]
      JSON.null])

/-- A child with the members of a thread and of a comment. -/
def sampleBothChild (id : String) : JSON :=
  JSON.obj [("data", JSON.obj [("id", JSON.str id), ("title", JSON.str "t"),
    ("url", JSON.str "u"), ("body", JSON.str "b"), ("author", JSON.str "a"),
    ("created_utc", JSON.num (sampleInt 7))])]

/-- Two shared pages: the first hands on `c1`, the second stops. -/
def sampleSharedPages : List SharedPage :=
  [{ post := JSON.null, listing := sampleListing [sampleBothChild "x1"] (JSON.str "c1"),
     children := [sampleBothChild "x1"], after := some (JSON.str "c1"),
     threads := [{ ID := "x1", Title := "t", URL := "u" }],
     comments := [{ ID := "x1", Body := "b", Author := "a", Created := 7 }] },
   { post := JSON.str "post", listing := sampleListingNoAfter [sampleBothChild "x2"],
     children := [sampleBothChild "x2"], after := none,
     threads := [{ ID := "x2", Title := "t", URL := "u" }],
     comments := [{ ID := "x2", Body := "b", Author := "a", Created := 7 }] }]

/-- The comment of the first sample comments page. -/
def sampleComment : Comment :=
  { ID := "k1", Body := "hello", Author := "ann", Created := 1700000000 }

/-- The request `getSubredditThreads` builds for the cursor `c`; `none` when
`http.NewRequest` rejects the URL text. -/
def threadsRequest (ua tok s c : String) : Option Request :=
  (newRequestURL (threadsURL s c)).map (getRequest ua tok)

/-- The request `getComments` builds for the cursor `c`; `none` when
`http.NewRequest` rejects the URL text. -/
def commentsRequest (ua tok s t c : String) : Option Request :=
  (newRequestURL (commentsURL s t c)).map (getRequest ua tok)

/-- A first thread page whose cursor has a line feed in it. -/
def sampleNewlinePage : Body :=
  some (sampleListing [sampleThreadChild "1" "a" "u1"] (JSON.str "a\nb"))

/-- A text which `net/url` leaves as it is in a path: ASCII characters that need
no escaping there, that is letters, digits and `-_.~$&+,/:;=@`. -/
def pathPlain (s : String) : Prop :=
  ∀ x ∈ s.data, x.toNat < 128 ∧ shouldEscape x.toNat Encoding.path = false

/-- A text which `net/url` leaves as it is in a query: no control character and
no `#`. -/
def queryPlain (s : String) : Prop :=
  ∀ x ∈ s.data, x ≠ '#' ∧ isCTL x = false

instance (s : String) : Decidable (pathPlain s) := by
  unfold pathPlain; infer_instance

instance (s : String) : Decidable (queryPlain s) := by
  unfold queryPlain; infer_instance

/-! ## Theorems -/

theorem mapIndex_eq (ms : List (String × JSON)) (k : String) :
    mapIndex ms k = (member ms k).getD JSON.null := by
  unfold mapIndex; cases member ms k <;> rfl

theorem assertMap_eq_some {v : JSON} {d : List (String × JSON)} :
    assertMap v = some d ↔ v = JSON.obj d := by
  cases v <;> simp [assertMap]

theorem assertSlice_eq_some {v : JSON} {xs : List JSON} :
    assertSlice v = some xs ↔ v = JSON.arr xs := by
  cases v <;> simp [assertSlice]

theorem assertString_eq_some {v : JSON} {s : String} :
    assertString v = some s ↔ v = JSON.str s := by
  cases v <;> simp [assertString]

theorem assertFloat64_eq_some {v : JSON} {f : Float64} :
    assertFloat64 v = some f ↔ ∃ n, v = JSON.num n ∧ n.asFloat64 = some f := by
  cases v <;> simp [assertFloat64]

theorem mapIndex_eq_obj {ms : List (String × JSON)} {k : String} {d : List (String × JSON)} :
    mapIndex ms k = JSON.obj d ↔ member ms k = some (JSON.obj d) := by
  rw [mapIndex_eq]; cases member ms k <;> simp

theorem mapIndex_eq_arr {ms : List (String × JSON)} {k : String} {xs : List JSON} :
    mapIndex ms k = JSON.arr xs ↔ member ms k = some (JSON.arr xs) := by
  rw [mapIndex_eq]; cases member ms k <;> simp

theorem mapIndex_eq_str {ms : List (String × JSON)} {k : String} {x : String} :
    mapIndex ms k = JSON.str x ↔ member ms k = some (JSON.str x) := by
  rw [mapIndex_eq]; cases member ms k <;> simp

theorem mapIndex_eq_num {ms : List (String × JSON)} {k : String} {n : Number} :
    mapIndex ms k = JSON.num n ↔ member ms k = some (JSON.num n) := by
  rw [mapIndex_eq]; cases member ms k <;> simp

theorem threadOfItem_eq_some {c : JSON} {t : Thread} :
    threadOfItem c = some t ↔ IsThreadChild c t := by
  unfold threadOfItem IsThreadChild
  constructor
  · intro h
    split at h
    · simp at h
    · rename_i m hm
      split at h
      · simp at h
      · rename_i d hd
        split at h
        · rename_i id title url h1 h2 h3
          simp only [Option.some.injEq] at h
          subst h
          exact ⟨m, d, assertMap_eq_some.1 hm, mapIndex_eq_obj.1 (assertMap_eq_some.1 hd),
            mapIndex_eq_str.1 (assertString_eq_some.1 h1),
            mapIndex_eq_str.1 (assertString_eq_some.1 h2),
            mapIndex_eq_str.1 (assertString_eq_some.1 h3)⟩
        · simp at h
  · rintro ⟨m, d, rfl, hd, h1, h2, h3⟩
    have hd1 : assertMap (mapIndex m "data") = some d :=
      assertMap_eq_some.2 (mapIndex_eq_obj.2 hd)
    have e1 := assertString_eq_some.2 (mapIndex_eq_str.2 h1)
    have e2 := assertString_eq_some.2 (mapIndex_eq_str.2 h2)
    have e3 := assertString_eq_some.2 (mapIndex_eq_str.2 h3)
    have h0 : assertMap (JSON.obj m) = some m := rfl
    simp only [h0, hd1, e1, e2, e3]

theorem sprintf_SubredditURL (s c : String) :
    sprintf SubredditURL [s, c] = threadsURL s c := by
  apply String.ext
  simp [sprintf, SubredditURL, threadsURL, sprintfChars]

theorem sprintf_CommentsURL (s t c : String) :
    sprintf CommentsURL [s, t, c] = commentsURL s t c := by
  apply String.ext
  simp [sprintf, CommentsURL, commentsURL, sprintfChars]

theorem sprintf_tokenBody (u p : String) :
    sprintf "grant_type=password&username=%s&password=%s" [u, p] =
      "grant_type=password&username=" ++ u ++ "&password=" ++ p := by
  apply String.ext
  simp [sprintf, sprintfChars]

theorem commentOfItem_eq_some {c : JSON} {x : Comment} :
    commentOfItem c = some x ↔ IsCommentChild c x := by
  unfold commentOfItem IsCommentChild
  constructor
  · intro h
    split at h
    · simp at h
    · rename_i m hm
      split at h
      · simp at h
      · rename_i d hd
        split at h
        · rename_i id body author created h1 h2 h3 h4
          simp only [Option.some.injEq] at h
          subst h
          obtain ⟨n, hn, hf⟩ := assertFloat64_eq_some.1 h4
          exact ⟨m, d, n, created, assertMap_eq_some.1 hm,
            mapIndex_eq_obj.1 (assertMap_eq_some.1 hd),
            mapIndex_eq_str.1 (assertString_eq_some.1 h1),
            mapIndex_eq_str.1 (assertString_eq_some.1 h2),
            mapIndex_eq_str.1 (assertString_eq_some.1 h3),
            mapIndex_eq_num.1 hn, hf, rfl⟩
        · simp at h
  · rintro ⟨m, d, n, f, rfl, hd, h1, h2, h3, h4, hf, hc⟩
    have hd1 : assertMap (mapIndex m "data") = some d :=
      assertMap_eq_some.2 (mapIndex_eq_obj.2 hd)
    have e1 := assertString_eq_some.2 (mapIndex_eq_str.2 h1)
    have e2 := assertString_eq_some.2 (mapIndex_eq_str.2 h2)
    have e3 := assertString_eq_some.2 (mapIndex_eq_str.2 h3)
    have e4 : assertFloat64 (mapIndex d "created_utc") = some f :=
      assertFloat64_eq_some.2 ⟨n, mapIndex_eq_num.2 h4, hf⟩
    have h0 : assertMap (JSON.obj m) = some m := rfl
    simp only [h0, hd1, e1, e2, e3, e4, ← hc]

theorem appendThreads_eq_some {children : List JSON} {acc r : List Thread} :
    appendThreads acc children = some r ↔
      ∃ ts, List.Forall₂ IsThreadChild children ts ∧ r = acc ++ ts := by
  induction children generalizing acc with
  | nil =>
    simp only [appendThreads, Option.some.injEq, List.forall₂_nil_left_iff]
    constructor
    · intro h; exact ⟨[], rfl, by simp [h]⟩
    · rintro ⟨ts, rfl, rfl⟩; simp
  | cons c cs ih =>
    simp only [appendThreads]
    constructor
    · intro h
      split at h
      · simp at h
      · rename_i t ht
        obtain ⟨ts, hts, rfl⟩ := ih.1 h
        exact ⟨t :: ts, List.Forall₂.cons (threadOfItem_eq_some.1 ht) hts, by simp⟩
    · rintro ⟨ts, hts, rfl⟩
      cases hts with
      | cons hc hrest =>
        rename_i t ts1
        rw [threadOfItem_eq_some.2 hc]
        exact ih.2 ⟨ts1, hrest, by simp⟩

theorem appendComments_eq_some {children : List JSON} {acc r : List Comment} :
    appendComments acc children = some r ↔
      ∃ cs, List.Forall₂ IsCommentChild children cs ∧ r = acc ++ cs := by
  induction children generalizing acc with
  | nil =>
    simp only [appendComments, Option.some.injEq, List.forall₂_nil_left_iff]
    constructor
    · intro h; exact ⟨[], rfl, by simp [h]⟩
    · rintro ⟨cs, rfl, rfl⟩; simp
  | cons c rest ih =>
    simp only [appendComments]
    constructor
    · intro h
      split at h
      · simp at h
      · rename_i x hx
        obtain ⟨cs, hcs, rfl⟩ := ih.1 h
        exact ⟨x :: cs, List.Forall₂.cons (commentOfItem_eq_some.1 hx) hcs, by simp⟩
    · rintro ⟨cs, hcs, rfl⟩
      cases hcs with
      | cons hc hrest =>
        rename_i x cs1
        rw [commentOfItem_eq_some.2 hc]
        exact ih.2 ⟨cs1, hrest, by simp⟩

/-- The two-valued assertion on `after` followed by the test for the empty
string decides as `nextCursor` does. -/
theorem cursor_cases {β : Type} (d : List (String × JSON)) (stop : β) (go : String → β) :
    (match assertString (mapIndex d "after") with
      | none => stop
      | some afterVal => if afterVal = "" then stop else go afterVal) =
    (match nextCursor (member d "after") with
      | none => stop
      | some a => go a) := by
  rw [mapIndex_eq]
  rcases member d "after" with _ | v
  · rfl
  · cases v <;> simp [assertString, nextCursor]
    rename_i x
    by_cases hx : x = "" <;> simp [hx]

theorem threadsLoop_nil (ua tok s : String) {c : String} {q : Request}
    (hq : threadsRequest ua tok s c = some q) (acc : List Thread) :
    threadsLoop ua tok s [] acc c = { sent := [q], rest := [], outcome := Outcome.exited } := by
  obtain ⟨u, hu, rfl⟩ := Option.map_eq_some'.1 hq
  rw [threadsLoop]; simp only [sprintf_SubredditURL, hu]

theorem threadsLoop_page (ua tok s : String) {c : String} {q : Request}
    (hq : threadsRequest ua tok s c = some q) {p : Body} {ts : List Thread} {a : Option JSON}
    (hp : IsThreadPage p ts a) (tail : List Body) (acc : List Thread) :
    threadsLoop ua tok s (p :: tail) acc c =
      match nextCursor a with
      | none => { sent := [q], rest := tail, outcome := Outcome.returned (acc ++ ts) }
      | some x =>
        { sent := q :: (threadsLoop ua tok s tail (acc ++ ts) x).sent,
          rest := (threadsLoop ua tok s tail (acc ++ ts) x).rest,
          outcome := (threadsLoop ua tok s tail (acc ++ ts) x).outcome } := by
  obtain ⟨u, hu, rfl⟩ := Option.map_eq_some'.1 hq
  obtain ⟨listing, children, rfl, ⟨ms, d, rfl, hd, hch, ha⟩, hts⟩ := hp
  have h1 : assertMap (mapIndex (unmarshalMap (some (JSON.obj ms))) "data") = some d :=
    assertMap_eq_some.2 (mapIndex_eq_obj.2 hd)
  have h2 : assertSlice (mapIndex d "children") = some children :=
    assertSlice_eq_some.2 (mapIndex_eq_arr.2 hch)
  have h3 : appendThreads acc children = some (acc ++ ts) :=
    appendThreads_eq_some.2 ⟨ts, hts, rfl⟩
  rw [threadsLoop]
  simp only [sprintf_SubredditURL, hu, h1, h2, h3]
  rw [cursor_cases, ha]

theorem threadsLoop_fault (ua tok s : String) {c : String} {q : Request}
    (hq : threadsRequest ua tok s c = some q) {p : Body}
    (hp : ¬ ∃ ts a, IsThreadPage p ts a) (tail : List Body) (acc : List Thread) :
    threadsLoop ua tok s (p :: tail) acc c =
      { sent := [q], rest := tail, outcome := Outcome.panicked } := by
  obtain ⟨u, hu, rfl⟩ := Option.map_eq_some'.1 hq
  rw [threadsLoop]
  simp only [sprintf_SubredditURL, hu]
  split
  · rfl
  · rename_i d hd
    split
    · rfl
    · rename_i children hch
      split
      · rfl
      · rename_i r hr
        exfalso
        apply hp
        obtain ⟨ts, hts, -⟩ := appendThreads_eq_some.1 hr
        have hobj := mapIndex_eq_obj.1 (assertMap_eq_some.1 hd)
        have hp0 : ∃ ms, p = some (JSON.obj ms) := by
          rcases p with _ | v
          · simp [unmarshalMap, member] at hobj
          · cases v <;> first | exact ⟨_, rfl⟩ | simp [unmarshalMap, member] at hobj
        obtain ⟨ms, rfl⟩ := hp0
        exact ⟨ts, member d "after", JSON.obj ms, children, rfl,
          ⟨ms, d, rfl, hobj, mapIndex_eq_arr.1 (assertSlice_eq_some.1 hch), rfl⟩, hts⟩

theorem listingData_eq_some {items : List JSON} {d : List (String × JSON)} :
    listingData items = some d ↔
      ∃ listing ms, items.get? 1 = some listing ∧ listing = JSON.obj ms ∧
        member ms "data" = some (JSON.obj d) := by
  unfold listingData
  constructor
  · intro h
    split at h
    · simp at h
    · rename_i listing hl
      split at h
      · simp at h
      · rename_i ms hms
        exact ⟨listing, ms, hl, assertMap_eq_some.1 hms,
          mapIndex_eq_obj.1 (assertMap_eq_some.1 h)⟩
  · rintro ⟨listing, ms, hl, rfl, hd⟩
    have h0 : assertMap (JSON.obj ms) = some ms := rfl
    simp only [hl, h0]
    exact assertMap_eq_some.2 (mapIndex_eq_obj.2 hd)

theorem commentsLoop_nil (ua tok s t : String) {c : String} {q : Request}
    (hq : commentsRequest ua tok s t c = some q) (acc : List Comment) :
    commentsLoop ua tok s t [] acc c =
      { sent := [q], rest := [], outcome := Outcome.exited } := by
  obtain ⟨u, hu, rfl⟩ := Option.map_eq_some'.1 hq
  rw [commentsLoop]; simp only [sprintf_CommentsURL, hu]

theorem commentsLoop_page (ua tok s t : String) {c : String} {q : Request}
    (hq : commentsRequest ua tok s t c = some q) {p : Body} {cs : List Comment}
    {a : Option JSON} (hp : IsCommentsPage p cs a) (tail : List Body) (acc : List Comment) :
    commentsLoop ua tok s t (p :: tail) acc c =
      match nextCursor a with
      | none => { sent := [q], rest := tail, outcome := Outcome.returned (acc ++ cs) }
      | some x =>
        { sent := q :: (commentsLoop ua tok s t tail (acc ++ cs) x).sent,
          rest := (commentsLoop ua tok s t tail (acc ++ cs) x).rest,
          outcome := (commentsLoop ua tok s t tail (acc ++ cs) x).outcome } := by
  obtain ⟨u, hu, rfl⟩ := Option.map_eq_some'.1 hq
  obtain ⟨items, listing, children, rfl, hl, ⟨ms, d, rfl, hd, hch, ha⟩, hcs⟩ := hp
  have h1 : listingData (unmarshalSlice (some (JSON.arr items))) = some d :=
    listingData_eq_some.2 ⟨_, ms, hl, rfl, hd⟩
  have h2 : assertSlice (mapIndex d "children") = some children :=
    assertSlice_eq_some.2 (mapIndex_eq_arr.2 hch)
  have h3 : appendComments acc children = some (acc ++ cs) :=
    appendComments_eq_some.2 ⟨cs, hcs, rfl⟩
  have hlen : (unmarshalSlice (some (JSON.arr items))).length > 1 := by
    show items.length > 1
    rcases items with _ | ⟨x, _ | ⟨y, r⟩⟩ <;> simp at hl ⊢
  rw [commentsLoop]
  simp only [sprintf_CommentsURL, hu, parseComments, hlen, if_true, h1, h2, h3]
  rw [cursor_cases, ha]

/-- The comments loop faults on every body whose decoded array has no element 1:
the index expression of line 179 is outside the guard of line 166. -/
theorem commentsLoop_short (ua tok s t : String) {c : String} {q : Request}
    (hq : commentsRequest ua tok s t c = some q) {p : Body}
    (hp : (unmarshalSlice p).length < 2) (tail : List Body) (acc : List Comment) :
    commentsLoop ua tok s t (p :: tail) acc c =
      { sent := [q], rest := tail, outcome := Outcome.panicked } := by
  obtain ⟨u, hu, rfl⟩ := Option.map_eq_some'.1 hq
  have hlen : ¬ (unmarshalSlice p).length > 1 := by omega
  have hget : listingData (unmarshalSlice p) = none := by
    unfold listingData
    have : (unmarshalSlice p).get? 1 = none := List.get?_eq_none.2 (by omega)
    rw [this]
  rw [commentsLoop]
  simp only [sprintf_CommentsURL, hu, parseComments, hlen, if_false, hget]

theorem commentsLoop_fault (ua tok s t : String) {c : String} {q : Request}
    (hq : commentsRequest ua tok s t c = some q) {p : Body}
    (hp : ¬ ∃ cs a, IsCommentsPage p cs a) (tail : List Body) (acc : List Comment) :
    commentsLoop ua tok s t (p :: tail) acc c =
      { sent := [q], rest := tail, outcome := Outcome.panicked } := by
  by_cases hlen : (unmarshalSlice p).length < 2
  · exact commentsLoop_short ua tok s t hq hlen tail acc
  obtain ⟨u, hu, rfl⟩ := Option.map_eq_some'.1 hq
  have hlen1 : (unmarshalSlice p).length > 1 := by omega
  rw [commentsLoop]
  simp only [sprintf_CommentsURL, hu, parseComments, hlen1, if_true]
  split
  · rfl
  · rename_i r hr
    exfalso
    apply hp
    split at hr
    · simp at hr
    · rename_i d hd
      split at hr
      · simp at hr
      · rename_i children hch
        obtain ⟨cs, hcs, -⟩ := appendComments_eq_some.1 hr
        obtain ⟨listing, ms, hl, rfl, hdata⟩ := listingData_eq_some.1 hd
        have hp0 : ∃ items, p = some (JSON.arr items) := by
          rcases p with _ | v
          · simp [unmarshalSlice] at hl
          · cases v <;> first | exact ⟨_, rfl⟩ | simp [unmarshalSlice] at hl
        obtain ⟨items, rfl⟩ := hp0
        exact ⟨cs, member d "after", items, JSON.obj ms, children, rfl, hl,
          ⟨ms, d, rfl, hdata, mapIndex_eq_arr.1 (assertSlice_eq_some.1 hch), rfl⟩, hcs⟩

theorem threadsLoop_page_stop (ua tok s : String) {c : String} {q : Request}
    (hq : threadsRequest ua tok s c = some q) {p : Body} {ts : List Thread}
    {a : Option JSON} (hp : IsThreadPage p ts a) (ha : nextCursor a = none) (tail : List Body)
    (acc : List Thread) :
    threadsLoop ua tok s (p :: tail) acc c =
      { sent := [q], rest := tail, outcome := Outcome.returned (acc ++ ts) } := by
  rw [threadsLoop_page ua tok s hq hp, ha]

theorem commentsLoop_page_stop (ua tok s t : String) {c : String} {q : Request}
    (hq : commentsRequest ua tok s t c = some q) {p : Body} {cs : List Comment}
    {a : Option JSON} (hp : IsCommentsPage p cs a) (ha : nextCursor a = none) (tail : List Body)
    (acc : List Comment) :
    commentsLoop ua tok s t (p :: tail) acc c =
      { sent := [q], rest := tail, outcome := Outcome.returned (acc ++ cs) } := by
  rw [commentsLoop_page ua tok s t hq hp, ha]

theorem threadsLoop_sent_head (ua tok s : String) {c : String} {q : Request}
    (hq : threadsRequest ua tok s c = some q) (tr : List Body) (acc : List Thread) :
    ∃ more, (threadsLoop ua tok s tr acc c).sent = q :: more := by
  cases tr with
  | nil => exact ⟨[], by rw [threadsLoop_nil ua tok s hq]⟩
  | cons p tail =>
    by_cases hp : ∃ ts a, IsThreadPage p ts a
    · obtain ⟨ts, a, h⟩ := hp
      rw [threadsLoop_page ua tok s hq h]
      cases nextCursor a <;> exact ⟨_, rfl⟩
    · rw [threadsLoop_fault ua tok s hq hp]
      exact ⟨_, rfl⟩

theorem commentsLoop_sent_head (ua tok s t : String) {c : String} {q : Request}
    (hq : commentsRequest ua tok s t c = some q) (tr : List Body) (acc : List Comment) :
    ∃ more, (commentsLoop ua tok s t tr acc c).sent = q :: more := by
  cases tr with
  | nil => exact ⟨[], by rw [commentsLoop_nil ua tok s t hq]⟩
  | cons p tail =>
    by_cases hp : ∃ cs a, IsCommentsPage p cs a
    · obtain ⟨cs, a, h⟩ := hp
      rw [commentsLoop_page ua tok s t hq h]
      cases nextCursor a <;> exact ⟨_, rfl⟩
    · rw [commentsLoop_fault ua tok s t hq hp]
      exact ⟨_, rfl⟩

theorem dropLast_append_getLastD (c : String) (l : List String) :
    (c :: l).dropLast ++ [l.getLastD c] = c :: l := by
  induction l generalizing c with
  | nil => rfl
  | cons a l ih => rw [List.dropLast_cons₂, List.getLastD_cons, List.cons_append, ih a]

theorem map_dropLast_append_getLastD {β : Type} (f : String → β) (c : String)
    (l : List String) :
    ((c :: l).dropLast).map f ++ [f (l.getLastD c)] = (c :: l).map f := by
  conv_rhs => rw [← dropLast_append_getLastD c l]
  rw [List.map_append, List.map_singleton]

theorem getLastD_mem_cons (c : String) (l : List String) : l.getLastD c ∈ c :: l := by
  induction l generalizing c with
  | nil => simp
  | cons a l ih =>
    rw [List.getLastD_cons]
    exact List.mem_cons_of_mem _ (ih a)

theorem mem_of_mem_dropLast_cons {c x : String} {l : List String}
    (h : x ∈ (c :: l).dropLast) : x ∈ c :: l :=
  List.dropLast_subset _ h

/-- Over pages that all hand on a cursor, the loop builds one request per page,
then goes on with the rest of the transcript. -/
theorem threadsLoop_pages (ua tok s : String) (pages : List (Body × List Thread × String))
    (hpages : ∀ x ∈ pages, IsThreadPage x.1 x.2.1 (some (JSON.str x.2.2)) ∧ x.2.2 ≠ "")
    (tail : List Body) (acc : List Thread) (c : String)
    (hq : ∀ x ∈ (c :: pages.map (fun x => x.2.2)).dropLast,
      (threadsRequest ua tok s x).isSome = true) :
    (threadsLoop ua tok s (pages.map (fun x => x.1) ++ tail) acc c).sent.map some =
        ((c :: pages.map (fun x => x.2.2)).dropLast).map (threadsRequest ua tok s) ++
        (threadsLoop ua tok s tail (acc ++ pages.flatMap (fun x => x.2.1))
          ((pages.map (fun x => x.2.2)).getLastD c)).sent.map some ∧
      (threadsLoop ua tok s (pages.map (fun x => x.1) ++ tail) acc c).rest =
        (threadsLoop ua tok s tail (acc ++ pages.flatMap (fun x => x.2.1))
          ((pages.map (fun x => x.2.2)).getLastD c)).rest ∧
      (threadsLoop ua tok s (pages.map (fun x => x.1) ++ tail) acc c).outcome =
        (threadsLoop ua tok s tail (acc ++ pages.flatMap (fun x => x.2.1))
          ((pages.map (fun x => x.2.2)).getLastD c)).outcome := by
  induction pages generalizing acc c with
  | nil => simp
  | cons x xs ih =>
    have hx := hpages x (List.mem_cons_self _ _)
    have hxs : ∀ y ∈ xs, IsThreadPage y.1 y.2.1 (some (JSON.str y.2.2)) ∧ y.2.2 ≠ "" :=
      fun y hy => hpages y (List.mem_cons_of_mem _ hy)
    have hnext : nextCursor (some (JSON.str x.2.2)) = some x.2.2 := by
      simp [nextCursor, hx.2]
    have hdrop : (c :: (x :: xs).map (fun x => x.2.2)).dropLast =
        c :: (x.2.2 :: xs.map (fun x => x.2.2)).dropLast := by
      rw [List.map_cons, List.dropLast_cons₂]
    rw [hdrop] at hq
    obtain ⟨q, hc⟩ := Option.isSome_iff_exists.1 (hq c (List.mem_cons_self _ _))
    obtain ⟨h1, h2, h3⟩ := ih hxs (acc ++ x.2.1) x.2.2
      (fun y hy => hq y (List.mem_cons_of_mem _ hy))
    rw [hdrop]
    simp only [List.map_cons, List.cons_append, threadsLoop_page ua tok s hc hx.1, hnext,
      List.flatMap_cons, List.getLastD_cons, h1, h2, h3, hc, List.append_assoc]
    simp

theorem commentsLoop_pages (ua tok s t : String) (pages : List (Body × List Comment × String))
    (hpages : ∀ x ∈ pages, IsCommentsPage x.1 x.2.1 (some (JSON.str x.2.2)) ∧ x.2.2 ≠ "")
    (tail : List Body) (acc : List Comment) (c : String)
    (hq : ∀ x ∈ (c :: pages.map (fun x => x.2.2)).dropLast,
      (commentsRequest ua tok s t x).isSome = true) :
    (commentsLoop ua tok s t (pages.map (fun x => x.1) ++ tail) acc c).sent.map some =
        ((c :: pages.map (fun x => x.2.2)).dropLast).map (commentsRequest ua tok s t) ++
        (commentsLoop ua tok s t tail (acc ++ pages.flatMap (fun x => x.2.1))
          ((pages.map (fun x => x.2.2)).getLastD c)).sent.map some ∧
      (commentsLoop ua tok s t (pages.map (fun x => x.1) ++ tail) acc c).rest =
        (commentsLoop ua tok s t tail (acc ++ pages.flatMap (fun x => x.2.1))
          ((pages.map (fun x => x.2.2)).getLastD c)).rest ∧
      (commentsLoop ua tok s t (pages.map (fun x => x.1) ++ tail) acc c).outcome =
        (commentsLoop ua tok s t tail (acc ++ pages.flatMap (fun x => x.2.1))
          ((pages.map (fun x => x.2.2)).getLastD c)).outcome := by
  induction pages generalizing acc c with
  | nil => simp
  | cons x xs ih =>
    have hx := hpages x (List.mem_cons_self _ _)
    have hxs : ∀ y ∈ xs, IsCommentsPage y.1 y.2.1 (some (JSON.str y.2.2)) ∧ y.2.2 ≠ "" :=
      fun y hy => hpages y (List.mem_cons_of_mem _ hy)
    have hnext : nextCursor (some (JSON.str x.2.2)) = some x.2.2 := by
      simp [nextCursor, hx.2]
    have hdrop : (c :: (x :: xs).map (fun x => x.2.2)).dropLast =
        c :: (x.2.2 :: xs.map (fun x => x.2.2)).dropLast := by
      rw [List.map_cons, List.dropLast_cons₂]
    rw [hdrop] at hq
    obtain ⟨q, hc⟩ := Option.isSome_iff_exists.1 (hq c (List.mem_cons_self _ _))
    obtain ⟨h1, h2, h3⟩ := ih hxs (acc ++ x.2.1) x.2.2
      (fun y hy => hq y (List.mem_cons_of_mem _ hy))
    rw [hdrop]
    simp only [List.map_cons, List.cons_append, commentsLoop_page ua tok s t hc hx.1, hnext,
      List.flatMap_cons, List.getLastD_cons, h1, h2, h3, hc, List.append_assoc]
    simp

/-- Pages that hand on a cursor followed by a page that stops: one request per
page, the rest of the transcript untouched, all threads returned. -/
theorem threadsLoop_pages_stop (ua tok s : String) (pages : List (Body × List Thread × String))
    (hpages : ∀ x ∈ pages, IsThreadPage x.1 x.2.1 (some (JSON.str x.2.2)) ∧ x.2.2 ≠ "")
    {last : Body} {lastThreads : List Thread} {lastAfter : Option JSON}
    (hlast : IsThreadPage last lastThreads lastAfter) (hstop : nextCursor lastAfter = none)
    (tail : List Body) (acc : List Thread) (c : String)
    (hq : ∀ x ∈ c :: pages.map (fun x => x.2.2), (threadsRequest ua tok s x).isSome = true) :
    (threadsLoop ua tok s (pages.map (fun x => x.1) ++ last :: tail) acc c).sent.map some =
        (c :: pages.map (fun x => x.2.2)).map (threadsRequest ua tok s) ∧
      (threadsLoop ua tok s (pages.map (fun x => x.1) ++ last :: tail) acc c).rest = tail ∧
      (threadsLoop ua tok s (pages.map (fun x => x.1) ++ last :: tail) acc c).outcome =
        Outcome.returned (acc ++ pages.flatMap (fun x => x.2.1) ++ lastThreads) := by
  obtain ⟨h1, h2, h3⟩ := threadsLoop_pages ua tok s pages hpages (last :: tail) acc c
    (fun x hx => hq x (mem_of_mem_dropLast_cons hx))
  obtain ⟨q, hl⟩ := Option.isSome_iff_exists.1
    (hq _ (getLastD_mem_cons c (pages.map (fun x => x.2.2))))
  rw [threadsLoop_page_stop ua tok s hl hlast hstop] at h1 h2 h3
  refine ⟨?_, h2, h3⟩
  rw [h1, List.map_singleton, ← hl, map_dropLast_append_getLastD]

theorem commentsLoop_pages_stop (ua tok s t : String)
    (pages : List (Body × List Comment × String))
    (hpages : ∀ x ∈ pages, IsCommentsPage x.1 x.2.1 (some (JSON.str x.2.2)) ∧ x.2.2 ≠ "")
    {last : Body} {lastComments : List Comment} {lastAfter : Option JSON}
    (hlast : IsCommentsPage last lastComments lastAfter) (hstop : nextCursor lastAfter = none)
    (tail : List Body) (acc : List Comment) (c : String)
    (hq : ∀ x ∈ c :: pages.map (fun x => x.2.2),
      (commentsRequest ua tok s t x).isSome = true) :
    (commentsLoop ua tok s t (pages.map (fun x => x.1) ++ last :: tail) acc c).sent.map some =
        (c :: pages.map (fun x => x.2.2)).map (commentsRequest ua tok s t) ∧
      (commentsLoop ua tok s t (pages.map (fun x => x.1) ++ last :: tail) acc c).rest = tail ∧
      (commentsLoop ua tok s t (pages.map (fun x => x.1) ++ last :: tail) acc c).outcome =
        Outcome.returned (acc ++ pages.flatMap (fun x => x.2.1) ++ lastComments) := by
  obtain ⟨h1, h2, h3⟩ := commentsLoop_pages ua tok s t pages hpages (last :: tail) acc c
    (fun x hx => hq x (mem_of_mem_dropLast_cons hx))
  obtain ⟨q, hl⟩ := Option.isSome_iff_exists.1
    (hq _ (getLastD_mem_cons c (pages.map (fun x => x.2.2))))
  rw [commentsLoop_page_stop ua tok s t hl hlast hstop] at h1 h2 h3
  refine ⟨?_, h2, h3⟩
  rw [h1, List.map_singleton, ← hl, map_dropLast_append_getLastD]

theorem stop_of_absent_null_empty {a : Option JSON}
    (h : a = none ∨ a = some JSON.null ∨ a = some (JSON.str "")) : nextCursor a = none := by
  rcases h with rfl | rfl | rfl <;> simp [nextCursor]

theorem length_eq_of_map_some {α β : Type} {l : List α} {m : List β} {f : β → Option α}
    (h : l.map some = m.map f) : l.length = m.length := by
  have := congrArg List.length h
  simpa using this

theorem eq_map_of_map_some {α β : Type} {l : List α} {m : List β} {f : β → Option α}
    {g : β → α} (h : l.map some = m.map f) (hf : ∀ x ∈ m, f x = some (g x)) :
    l = m.map g := by
  induction m generalizing l with
  | nil => simpa using h
  | cons x xs ih =>
    cases l with
    | nil => simp at h
    | cons y ys =>
      simp only [List.map_cons, List.cons.injEq] at h
      rw [hf x (List.mem_cons_self _ _)] at h
      rw [List.map_cons, ih h.2 (fun z hz => hf z (List.mem_cons_of_mem _ hz))]
      simp only [Option.some.injEq] at h
      rw [h.1]

theorem sampleThreadChild_is (id title url : String) :
    IsThreadChild (sampleThreadChild id title url) { ID := id, Title := title, URL := url } :=
  ⟨_, _, rfl, rfl, rfl, rfl, rfl⟩

theorem sampleListing_is (children : List JSON) (after : JSON) :
    IsListing (sampleListing children after) children (some after) :=
  ⟨_, _, rfl, rfl, rfl, rfl⟩

theorem sampleListingNoAfter_is (children : List JSON) :
    IsListing (sampleListingNoAfter children) children none :=
  ⟨_, _, rfl, rfl, rfl, rfl⟩

theorem member_append_single (ms : List (String × JSON)) (k0 : String) (v : JSON) (k : String) :
    member (ms ++ [(k0, v)]) k = if k0 = k then some v else member ms k := by
  unfold member
  rw [List.reverse_append, List.reverse_singleton, List.singleton_append, List.find?_cons]
  by_cases h : k0 = k
  · simp [h]
  · have hb : (k0 == k) = false := by simpa using h
    simp only [hb, if_neg h]

theorem member_sampleCommentData_append (id body author : String) (created : Int)
    (replies : Option JSON) (k : String) (hk : k ≠ "replies") :
    member (sampleCommentData id body author created ++
      match replies with
      | some r => [("replies", r)]
      | none => []) k = member (sampleCommentData id body author created) k := by
  cases replies with
  | none => simp
  | some r =>
    show member (_ ++ [("replies", r)]) k = _
    rw [member_append_single, if_neg (fun h => hk h.symm)]

theorem sampleCommentChild_is (id body author : String) (created : Int) (replies : Option JSON)
    (h : -(2 : Int) ^ 63 ≤ created ∧ created < (2 : Int) ^ 63) :
    IsCommentChild (sampleCommentChild id body author created replies)
      { ID := id, Body := body, Author := author, Created := created } := by
  have ht : Float64.trunc { mant := created, exp := 0 } = created := by simp [Float64.trunc]
  have hc : created = int64OfFloat64 { mant := created, exp := 0 } := by
    unfold int64OfFloat64
    rw [ht, if_pos h]
  refine ⟨_, _, sampleInt created, { mant := created, exp := 0 }, rfl, rfl, ?_, ?_, ?_, ?_, rfl,
    hc⟩
  · rw [member_sampleCommentData_append _ _ _ _ _ _ (by decide)]; rfl
  · rw [member_sampleCommentData_append _ _ _ _ _ _ (by decide)]; rfl
  · rw [member_sampleCommentData_append _ _ _ _ _ _ (by decide)]; rfl
  · rw [member_sampleCommentData_append _ _ _ _ _ _ (by decide)]; rfl

theorem IsListing.unique {l : JSON} {cs cs1 : List JSON} {a a1 : Option JSON}
    (h : IsListing l cs a) (h1 : IsListing l cs1 a1) : cs = cs1 ∧ a = a1 := by
  obtain ⟨ms, d, rfl, hd, hc, ha⟩ := h
  obtain ⟨ms1, d1, e, hd1, hc1, ha1⟩ := h1
  cases e
  rw [hd] at hd1
  cases hd1
  rw [hc] at hc1
  cases hc1
  exact ⟨rfl, ha.symm.trans ha1⟩

theorem forall₂_exists_of_mem {α β : Type} {R : α → β → Prop} {l : List α} {l1 : List β}
    (h : List.Forall₂ R l l1) {x : α} (hx : x ∈ l) : ∃ y, R x y := by
  induction h with
  | nil => cases hx
  | cons hr _ ih =>
    rcases List.mem_cons.1 hx with rfl | hx1
    · exact ⟨_, hr⟩
    · exact ih hx1

theorem not_threadPage_of_malformed {p : Body} (h : ThreadPageMalformed p) :
    ¬ ∃ ts a, IsThreadPage p ts a := by
  rintro ⟨ts, a, listing, children, rfl, hl, hts⟩
  rcases h with h | ⟨listing1, children1, after1, e, hl1, c, hc, hno⟩
  · exact h listing children a rfl hl
  · cases e
    obtain ⟨rfl, -⟩ := hl.unique hl1
    obtain ⟨t, ht⟩ := forall₂_exists_of_mem hts hc
    exact hno t ht

theorem not_commentsPage_of_malformed {p : Body} (h : CommentsPageMalformed p) :
    ¬ ∃ cs a, IsCommentsPage p cs a := by
  rintro ⟨cs, a, items, listing, children, rfl, hi, hl, hcs⟩
  obtain ⟨items1, listing1, e, hi1, h⟩ := h
  cases e
  rw [hi] at hi1
  cases hi1
  rcases h with h | ⟨children1, after1, hl1, c, hc, hno⟩
  · exact h children a hl
  · obtain ⟨rfl, -⟩ := hl.unique hl1
    obtain ⟨x, hx⟩ := forall₂_exists_of_mem hcs hc
    exact hno x hx

/-- C2, the code at the failing inputs. On a comments response that decodes to
an array of length below 2 (the empty array, a one-element array, a JSON object,
text that is not JSON) `getComments` does not return the empty list: it ends in
a runtime fault, the index expression `result[1]` of line 179 standing outside
the guard `len(result) > 1` of line 166. -/
theorem C2_getComments_short_array_faults :
    (getComments "ua" "tok" "Home" "t1" [some (JSON.arr [])]).outcome = Outcome.panicked ∧
      (getComments "ua" "tok" "Home" "t1" [some (JSON.arr [JSON.obj []])]).outcome =
        Outcome.panicked ∧
      (getComments "ua" "tok" "Home" "t1" [some (JSON.obj [])]).outcome = Outcome.panicked ∧
      (getComments "ua" "tok" "Home" "t1" [none]).outcome = Outcome.panicked ∧
      parseComments [] (unmarshalSlice (some (JSON.arr []))) = some [] := by
  decide

theorem forall₂_flatMap {α β γ : Type} {R : β → γ → Prop} (f : α → List β) (g : α → List γ)
    (l : List α) (h : ∀ x ∈ l, List.Forall₂ R (f x) (g x)) :
    List.Forall₂ R (l.flatMap f) (l.flatMap g) := by
  induction l with
  | nil => simp
  | cons x xs ih =>
    simp only [List.flatMap_cons]
    exact List.rel_append (h x (List.mem_cons_self _ _))
      (ih (fun y hy => h y (List.mem_cons_of_mem _ hy)))

theorem IsCommentChild.of_sameButReplies {c c1 : JSON} {x : Comment}
    (h : SameButReplies c c1) (hx : IsCommentChild c x) : IsCommentChild c1 x := by
  obtain ⟨m, d, m1, d1, rfl, hd, rfl, hd1, hk⟩ := h
  obtain ⟨m0, d0, n, f, e, hd0, h1, h2, h3, h4, hf, hc⟩ := hx
  cases e
  rw [hd] at hd0
  cases hd0
  exact ⟨m1, d1, n, f, rfl, hd1, (hk "id" (by decide)) ▸ h1, (hk "body" (by decide)) ▸ h2,
    (hk "author" (by decide)) ▸ h3, (hk "created_utc" (by decide)) ▸ h4, hf, hc⟩

theorem forall₂_of_sameButReplies {ch ch1 : List JSON} {cs : List Comment}
    (h : List.Forall₂ SameButReplies ch ch1) (hcs : List.Forall₂ IsCommentChild ch cs) :
    List.Forall₂ IsCommentChild ch1 cs := by
  induction h generalizing cs with
  | nil => cases hcs; exact List.Forall₂.nil
  | cons hr _ ih =>
    cases hcs with
    | cons hx hrest => exact List.Forall₂.cons (hx.of_sameButReplies hr) (ih hrest)

theorem findField_accessToken (k : String) :
    findField k = some Field.accessToken ↔ foldName k = foldName "access_token" := by
  unfold findField
  by_cases h1 : k = "access_token"
  · subst h1; simp [Field.all, Field.tag, List.find?]
  by_cases h2 : k = "token_type"
  · subst h2; simp [Field.all, Field.tag, List.find?]; decide
  by_cases h3 : k = "expires_in"
  · subst h3; simp [Field.all, Field.tag, List.find?]; decide
  by_cases h4 : k = "scope"
  · subst h4; simp [Field.all, Field.tag, List.find?]; decide
  have e1 : ("access_token" == k) = false := by simpa using fun h => h1 h.symm
  have e2 : ("token_type" == k) = false := by simpa using fun h => h2 h.symm
  have e3 : ("expires_in" == k) = false := by simpa using fun h => h3 h.symm
  have e4 : ("scope" == k) = false := by simpa using fun h => h4 h.symm
  simp only [Field.all, Field.tag, List.find?, e1, e2, e3, e4]
  by_cases hf : foldName k = foldName "access_token"
  · have : (foldName "access_token" == foldName k) = true := by simpa using hf.symm
    simp only [this]
    exact ⟨fun _ => hf, fun _ => trivial⟩
  · have hb : (foldName "access_token" == foldName k) = false := by
      simpa using fun h => hf h.symm
    simp only [hb, hf, iff_false]
    cases (foldName "token_type" == foldName k) <;>
      cases (foldName "expires_in" == foldName k) <;>
      cases (foldName "scope" == foldName k) <;> simp

theorem storeMember_accessToken (d : Decoded) (m : String × JSON) :
    (storeMember d m).token.AccessToken =
      ((if foldName m.1 = foldName "access_token" then assertString m.2 else none).getD
        d.token.AccessToken) := by
  unfold storeMember
  by_cases hf : foldName m.1 = foldName "access_token"
  · rw [(findField_accessToken m.1).2 hf, if_pos hf]
    cases m.2 <;> simp [storeString, assertString]
  · rw [if_neg hf]
    have hne : findField m.1 ≠ some Field.accessToken :=
      fun h => hf ((findField_accessToken m.1).1 h)
    rcases hfield : findField m.1 with _ | f
    · rfl
    · cases f
      · exact absurd hfield hne
      · cases m.2 <;> simp [storeString]
      · cases m.2 <;> simp [storeInt]
        split <;> simp
      · cases m.2 <;> simp [storeString]

theorem foldl_storeMember_accessToken (members : List (String × JSON)) (d : Decoded) :
    (members.foldl storeMember d).token.AccessToken =
      ((members.filterMap (fun m =>
        if foldName m.1 = foldName "access_token" then assertString m.2 else none)).getLast?).getD
        d.token.AccessToken := by
  induction members generalizing d with
  | nil => rfl
  | cons m ms ih =>
    rw [List.foldl_cons, ih, storeMember_accessToken, List.filterMap_cons]
    rcases (if foldName m.1 = foldName "access_token" then assertString m.2 else none) with _ | x
    · rfl
    · simp [List.getLast?_cons]

theorem getAccessToken_outcome (env : Env) (body : Body) (rest : List Body) :
    (getAccessToken env (body :: rest)).outcome = Outcome.returned (bearerOf body) := by
  simp only [getAccessToken]
  congr 1
  rcases body with _ | v
  · rfl
  · cases v <;> try rfl
    exact foldl_storeMember_accessToken _ _

/-- C5, refuted as stated. The body carries a valid `access_token` and a
non-numeric `expires_in`: decoding it into the record is an error, yet
`getAccessToken` returns `abc`, not the empty string. -/
theorem C5_type_error_keeps_token_counterexample :
    (unmarshalToken (some (JSON.obj [("access_token", JSON.str "abc"),
        ("expires_in", JSON.str "soon")]))).err = true ∧
      (getAccessToken sampleEnv
        [some (JSON.obj [("access_token", JSON.str "abc"),
          ("expires_in", JSON.str "soon")])]).outcome = Outcome.returned "abc" := by
  decide

/-- C5, amended. `getAccessToken` discards the error of the decode and returns
the `AccessToken` field as the decode left it: the empty string when the body is
not valid JSON or is not an object; for an object, the string value of the last
member matching `access_token` that has a string value (type errors of other
members, or of other `access_token` members, do not undo it), and the empty
string when there is no such member. -/
theorem C5_getAccessToken_returns_stored_token (env : Env) (body : Body) (rest : List Body) :
    (getAccessToken env (body :: rest)).outcome = Outcome.returned (bearerOf body) :=
  getAccessToken_outcome env body rest

/-- C3, refuted as stated. The object has no member named `access_token`, but
its member `Access_Token` matches the field case-insensitively:
`getAccessToken` returns `abc` and `main` goes on to request the listing. -/
theorem C3_case_insensitive_member_counterexample :
    (∀ m ∈ [("Access_Token", JSON.str "abc")], m.1 ≠ "access_token") ∧
      (getAccessToken sampleEnv
        [some (JSON.obj [("Access_Token", JSON.str "abc")])]).outcome = Outcome.returned "abc" ∧
      ((main (some sampleEnv)
        [some (JSON.obj [("Access_Token", JSON.str "abc")])]).sent.map (fun r => r.url)) =
        ["https://www.reddit.com/api/v1/access_token",
          "https://oauth.reddit.com/r/Home/hot?raw_json=1&limit=10&after="] := by
  decide

/-- C3, amended. For a token response that is a JSON object none of whose
member names matches `access_token`, exactly or after case folding,
`getAccessToken` returns the empty string; and whenever `getAccessToken` returns
the empty string, `main` exits having built the token request only, consumed no
further response and printed nothing. -/
theorem C3_missing_access_token_halts (env : Env) (members : List (String × JSON))
    (rest : List Body) (h : ∀ m ∈ members, foldName m.1 ≠ foldName "access_token") :
    (getAccessToken env (some (JSON.obj members) :: rest)).outcome = Outcome.returned "" ∧
      ∀ body : Body, (getAccessToken env (body :: rest)).outcome = Outcome.returned "" →
        (main (some env) (body :: rest)).outcome = Outcome.exited ∧
          (main (some env) (body :: rest)).sent = [tokenRequest env] ∧
          (main (some env) (body :: rest)).stdout = [] ∧
          (main (some env) (body :: rest)).rest = rest := by
  constructor
  · rw [getAccessToken_outcome]
    have hnil : members.filterMap (fun m =>
        if foldName m.1 = foldName "access_token" then assertString m.2 else none) = [] := by
      rw [List.filterMap_eq_nil_iff]
      intro m hm
      rw [if_neg (h m hm)]
    simp only [bearerOf, hnil]
    rfl
  · intro body hb
    simp only [getAccessToken, Outcome.returned.injEq] at hb
    simp [main, loadEnv, getAccessToken, hb]

/-- Instance of the amended C3: an object with a token type and a scope but no
token. -/
theorem C3_missing_access_token_halts_witness :
    (getAccessToken sampleEnv
        (some (JSON.obj [("token_type", JSON.str "bearer"), ("scope", JSON.str "*")]) ::
          [some (sampleListingNoAfter [])])).outcome = Outcome.returned "" ∧
      ∀ body : Body,
        (getAccessToken sampleEnv (body :: [some (sampleListingNoAfter [])])).outcome =
          Outcome.returned "" →
        (main (some sampleEnv) (body :: [some (sampleListingNoAfter [])])).outcome =
            Outcome.exited ∧
          (main (some sampleEnv) (body :: [some (sampleListingNoAfter [])])).sent =
            [tokenRequest sampleEnv] ∧
          (main (some sampleEnv) (body :: [some (sampleListingNoAfter [])])).stdout = [] ∧
          (main (some sampleEnv) (body :: [some (sampleListingNoAfter [])])).rest =
            [some (sampleListingNoAfter [])] :=
  C3_missing_access_token_halts sampleEnv
    [("token_type", JSON.str "bearer"), ("scope", JSON.str "*")]
    [some (sampleListingNoAfter [])] (by decide)

theorem splitAmp_noAmp (l : List Char) (h : ∀ c ∈ l, c ≠ '&') : splitAmp l = [l] := by
  induction l with
  | nil => rfl
  | cons c l ih =>
    have hc : c ≠ '&' := h c (List.mem_cons_self _ _)
    rw [splitAmp, if_neg hc, ih (fun x hx => h x (List.mem_cons_of_mem _ hx))]

theorem splitAmp_append (l r : List Char) (h : ∀ c ∈ l, c ≠ '&') :
    splitAmp (l ++ '&' :: r) = l :: splitAmp r := by
  induction l with
  | nil => simp [splitAmp]
  | cons c l ih =>
    have hc : c ≠ '&' := h c (List.mem_cons_self _ _)
    rw [List.cons_append, splitAmp, if_neg hc, ih (fun x hx => h x (List.mem_cons_of_mem _ hx))]

theorem unescapeChars_plain (l : List Char) (h : ∀ c ∈ l, c ≠ '+' ∧ c ≠ '%') :
    unescapeChars l = l := by
  unfold unescapeChars
  induction l with
  | nil => rfl
  | cons c l ih =>
    obtain ⟨h1, h2⟩ := h c (List.mem_cons_self _ _)
    simp only [unescapeFrom, if_neg h1, if_neg h2,
      ih (fun x hx => h x (List.mem_cons_of_mem _ hx))]

theorem string_mk_data (s : String) : String.mk s.data = s := rfl

theorem decodeForm_tokenBody (u p : String) (hu : formPlain u) (hp : formPlain p) :
    decodeForm ("grant_type=password&username=" ++ u ++ "&password=" ++ p) =
      [("grant_type", "password"), ("username", u), ("password", p)] := by
  have hdata : ("grant_type=password&username=" ++ u ++ "&password=" ++ p).data =
      "grant_type=password".data ++ '&' :: (("username=".data ++ u.data) ++
        '&' :: ("password=".data ++ p.data)) := by
    simp [String.data_append]
  have n1 : ∀ c ∈ "grant_type=password".data, c ≠ '&' := by decide
  have m2 : ∀ c ∈ "username=".data, c ≠ '&' := by decide
  have m3 : ∀ c ∈ "password=".data, c ≠ '&' := by decide
  have n2 : ∀ c ∈ "username=".data ++ u.data, c ≠ '&' := by
    intro c hc
    rcases List.mem_append.1 hc with h | h
    · exact m2 c h
    · exact (hu c h).1
  have n3 : ∀ c ∈ "password=".data ++ p.data, c ≠ '&' := by
    intro c hc
    rcases List.mem_append.1 hc with h | h
    · exact m3 c h
    · exact (hp c h).1
  have c2 : cutEq ("username=".data ++ u.data) = ("username".data, u.data) := by
    simp [cutEq]
  have c3 : cutEq ("password=".data ++ p.data) = ("password".data, p.data) := by
    simp [cutEq]
  have e2 : unescapeChars u.data = u.data := unescapeChars_plain _ (fun c hc => (hu c hc).2)
  have e3 : unescapeChars p.data = p.data := unescapeChars_plain _ (fun c hc => (hp c hc).2)
  have hA : decodePiece "grant_type=password".data = ("grant_type", "password") := by decide
  have hB : decodePiece ("username=".data ++ u.data) = ("username", u) := by
    unfold decodePiece
    rw [c2, e2]
    rfl
  have hC : decodePiece ("password=".data ++ p.data) = ("password", p) := by
    unfold decodePiece
    rw [c3, e3]
    rfl
  have hfilter : List.filter (fun piece : List Char => !piece.isEmpty)
      ["grant_type=password".data, "username=".data ++ u.data, "password=".data ++ p.data] =
      ["grant_type=password".data, "username=".data ++ u.data, "password=".data ++ p.data] :=
    rfl
  unfold decodeForm
  rw [hdata, splitAmp_append _ _ n1, splitAmp_append _ _ n2, splitAmp_noAmp _ n3, hfilter,
    List.map_cons, List.map_cons, List.map_cons, List.map_nil, hA, hB, hC]

/-- C6, refuted as stated. A username or password with `&`, `+` or `%` is
inserted as it is, and the body no longer decodes to the three fields: `a&b=c`
splits into two fields, `a+b` decodes to `a b`, `100%25` decodes to `100%`. -/
theorem C6_form_body_not_escaped_counterexample :
    decodeForm (tokenRequest { sampleEnv with USERNAME := "a&b=c" }).body =
        [("grant_type", "password"), ("username", "a"), ("b", "c"), ("password", "p")] ∧
      decodeForm (tokenRequest { sampleEnv with PASSWORD := "a+b" }).body =
        [("grant_type", "password"), ("username", "u"), ("password", "a b")] ∧
      decodeForm (tokenRequest { sampleEnv with PASSWORD := "100%25" }).body =
        [("grant_type", "password"), ("username", "u"), ("password", "100%")] ∧
      decodeForm (tokenRequest { sampleEnv with USERNAME := "a&b=c" }).body ≠
        [("grant_type", "password"), ("username", "a&b=c"), ("password", "p")] := by
  decide

theorem samplePage1_is :
    IsThreadPage samplePage1
      [{ ID := "1", Title := "a", URL := "u1" }, { ID := "2", Title := "b", URL := "u2" }]
      (some (JSON.str "c1")) :=
  ⟨_, _, rfl, sampleListing_is _ _,
    List.Forall₂.cons (sampleThreadChild_is _ _ _)
      (List.Forall₂.cons (sampleThreadChild_is _ _ _) List.Forall₂.nil)⟩

theorem samplePage2_is :
    IsThreadPage samplePage2 [{ ID := "3", Title := "c", URL := "u3" }] none :=
  ⟨_, _, rfl, sampleListingNoAfter_is _,
    List.Forall₂.cons (sampleThreadChild_is _ _ _) List.Forall₂.nil⟩

theorem sampleCommentsPage1_is :
    IsCommentsPage sampleCommentsPage1
      [{ ID := "k1", Body := "hello", Author := "ann", Created := 1700000000 }]
      (some (JSON.str "c1")) :=
  ⟨_, _, _, rfl, rfl, sampleListing_is _ _,
    List.Forall₂.cons (sampleCommentChild_is _ _ _ _ _ (by decide)) List.Forall₂.nil⟩

theorem sampleCommentsPage2_is :
    IsCommentsPage sampleCommentsPage2
      [{ ID := "k2", Body := "bye", Author := "cid", Created := 1700000002 }]
      (some JSON.null) :=
  ⟨_, _, _, rfl, rfl, sampleListing_is _ _,
    List.Forall₂.cons (sampleCommentChild_is _ _ _ _ _ (by decide)) List.Forall₂.nil⟩

theorem sampleBadThreadPage_malformed : ThreadPageMalformed sampleBadThreadPage := by
  left
  rintro listing children after e ⟨ms, d, rfl, hd, -, -⟩
  cases e
  cases hd

theorem sampleMoreChild_not_comment (x : Comment) : ¬ IsCommentChild sampleMoreChild x := by
  rintro ⟨m, d, n, f, e, hd, -, h2, -⟩
  cases e
  cases hd
  cases h2

theorem sampleBadCommentsPage_malformed : CommentsPageMalformed sampleBadCommentsPage :=
  ⟨_, _, rfl, rfl, Or.inr ⟨_, _, sampleListing_is _ _, sampleMoreChild,
    by simp, sampleMoreChild_not_comment⟩⟩

theorem sampleBothChild_thread (id : String) :
    IsThreadChild (sampleBothChild id) { ID := id, Title := "t", URL := "u" } :=
  ⟨_, _, rfl, rfl, rfl, rfl, rfl⟩

theorem sampleBothChild_comment (id : String) :
    IsCommentChild (sampleBothChild id) { ID := id, Body := "b", Author := "a", Created := 7 } :=
  ⟨_, _, sampleInt 7, { mant := 7, exp := 0 }, rfl, rfl, rfl, rfl, rfl, rfl, rfl, by
    show (7 : Int) = int64OfFloat64 { mant := 7, exp := 0 }
    decide⟩

theorem sampleSharedPages_wellFormed : ∀ x ∈ sampleSharedPages, x.WellFormed := by
  intro x hx
  simp only [sampleSharedPages, List.mem_cons, List.mem_singleton, List.not_mem_nil,
    or_false] at hx
  rcases hx with rfl | rfl
  · exact ⟨sampleListing_is _ _,
      List.Forall₂.cons (sampleBothChild_thread _) List.Forall₂.nil,
      List.Forall₂.cons (sampleBothChild_comment _) List.Forall₂.nil⟩
  · exact ⟨sampleListingNoAfter_is _,
      List.Forall₂.cons (sampleBothChild_thread _) List.Forall₂.nil,
      List.Forall₂.cons (sampleBothChild_comment _) List.Forall₂.nil⟩

theorem sampleComment_sameButReplies (id body author : String) (created : Int)
    (r r1 : Option JSON) :
    SameButReplies (sampleCommentChild id body author created r)
      (sampleCommentChild id body author created r1) :=
  ⟨_, _, _, _, rfl, rfl, rfl, rfl, fun k hk => by
    rw [member_sampleCommentData_append _ _ _ _ _ _ hk,
      member_sampleCommentData_append _ _ _ _ _ _ hk]⟩

theorem sampleNewlinePage_is :
    IsThreadPage sampleNewlinePage [{ ID := "1", Title := "a", URL := "u1" }]
      (some (JSON.str "a\nb")) :=
  ⟨_, _, rfl, sampleListing_is _ _,
    List.Forall₂.cons (sampleThreadChild_is _ _ _) List.Forall₂.nil⟩

theorem threadsRequest_isSome (ua tok : String) {s c : String}
    (h : (newRequestURL (threadsURL s c)).isSome = true) :
    (threadsRequest ua tok s c).isSome = true := by
  simpa [threadsRequest] using h

theorem commentsRequest_isSome (ua tok : String) {s t c : String}
    (h : (newRequestURL (commentsURL s t c)).isSome = true) :
    (commentsRequest ua tok s t c).isSome = true := by
  simpa [commentsRequest] using h

/-- C1, refuted as stated. Two well-formed pages, the first handing on the
non-empty cursor `a\nb`, the second without `after`: `http.NewRequest` rejects
the URL of the second request for its control character, and
`getSubredditThreads` exits after one request, the second page unread, instead
of returning the threads of both pages. -/
theorem C1_unbuildable_cursor_counterexample :
    IsThreadPage sampleNewlinePage [{ ID := "1", Title := "a", URL := "u1" }]
        (some (JSON.str "a\nb")) ∧
      "a\nb" ≠ "" ∧
      IsThreadPage samplePage2 [{ ID := "3", Title := "c", URL := "u3" }] none ∧
      (getSubredditThreads "ua" "tok" "Home" [sampleNewlinePage, samplePage2]).outcome =
        Outcome.exited ∧
      (getSubredditThreads "ua" "tok" "Home" [sampleNewlinePage, samplePage2]).sent.length = 1 ∧
      (getSubredditThreads "ua" "tok" "Home" [sampleNewlinePage, samplePage2]).rest.length = 1 :=
  ⟨sampleNewlinePage_is, by decide, samplePage2_is, by decide, by decide, by decide⟩

/-- C1, amended. For well-formed thread pages p_1..p_n, every page before the
last carrying a non-empty string `after` and the last one an absent, null or
empty `after`, and such that `http.NewRequest` accepts the URL of each of the n
requests (the URL with the empty cursor and with the `after` of every page
before the last), `getSubredditThreads` builds exactly n requests, consumes
exactly these n responses and returns the threads of the children of
p_1, ..., p_n concatenated in order. -/
theorem C1_getSubredditThreads_concatenates_pages (ua tok s : String)
    (pages : List (Body × List Thread × String)) (last : Body) (lastThreads : List Thread)
    (lastAfter : Option JSON) (tail : List Body)
    (hpages : ∀ x ∈ pages, IsThreadPage x.1 x.2.1 (some (JSON.str x.2.2)) ∧ x.2.2 ≠ "")
    (hlast : IsThreadPage last lastThreads lastAfter)
    (hstop : lastAfter = none ∨ lastAfter = some JSON.null ∨ lastAfter = some (JSON.str ""))
    (hurl : ∀ c ∈ "" :: pages.map (fun x => x.2.2),
      (newRequestURL (threadsURL s c)).isSome = true) :
    (getSubredditThreads ua tok s (pages.map (fun x => x.1) ++ last :: tail)).sent.length =
        pages.length + 1 ∧
      (getSubredditThreads ua tok s (pages.map (fun x => x.1) ++ last :: tail)).rest = tail ∧
      (getSubredditThreads ua tok s (pages.map (fun x => x.1) ++ last :: tail)).outcome =
        Outcome.returned (pages.flatMap (fun x => x.2.1) ++ lastThreads) := by
  obtain ⟨h1, h2, h3⟩ := threadsLoop_pages_stop ua tok s pages hpages hlast
    (stop_of_absent_null_empty hstop) tail [] ""
    (fun c hc => threadsRequest_isSome ua tok (hurl c hc))
  simp only [List.nil_append] at h3
  refine ⟨?_, h2, h3⟩
  rw [getSubredditThreads, length_eq_of_map_some h1]
  simp

/-- Instance of the amended C1: two pages, the first with cursor `c1`, the
second without `after` member. -/
theorem C1_getSubredditThreads_concatenates_pages_witness :
    (getSubredditThreads "ua" "tok" "Home" [samplePage1, samplePage2]).sent.length = 2 ∧
      (getSubredditThreads "ua" "tok" "Home" [samplePage1, samplePage2]).rest = [] ∧
      (getSubredditThreads "ua" "tok" "Home" [samplePage1, samplePage2]).outcome =
        Outcome.returned [{ ID := "1", Title := "a", URL := "u1" },
          { ID := "2", Title := "b", URL := "u2" }, { ID := "3", Title := "c", URL := "u3" }] :=
  C1_getSubredditThreads_concatenates_pages "ua" "tok" "Home"
    [(samplePage1, [{ ID := "1", Title := "a", URL := "u1" },
      { ID := "2", Title := "b", URL := "u2" }], "c1")]
    samplePage2 [{ ID := "3", Title := "c", URL := "u3" }] none []
    (by
      intro x hx
      rw [List.mem_singleton] at hx
      subst hx
      exact ⟨samplePage1_is, by decide⟩)
    samplePage2_is (Or.inl rfl) (by decide)

theorem threadsRequest_of_unchanged {ua tok s c : String}
    (h : newRequestURL (threadsURL s c) = some (threadsURL s c)) :
    threadsRequest ua tok s c = some (getRequest ua tok (threadsURL s c)) := by
  simp [threadsRequest, h]

theorem commentsRequest_of_unchanged {ua tok s t c : String}
    (h : newRequestURL (commentsURL s t c) = some (commentsURL s t c)) :
    commentsRequest ua tok s t c = some (getRequest ua tok (commentsURL s t c)) := by
  simp [commentsRequest, h]

theorem isSome_of_eq_some {α : Type} {o : Option α} {a : α} (h : o = some a) :
    o.isSome = true := by
  rw [h]; rfl

theorem threadsLoop_pages_urls (ua tok s : String) (pages : List (Body × List Thread × String))
    (hpages : ∀ x ∈ pages, IsThreadPage x.1 x.2.1 (some (JSON.str x.2.2)) ∧ x.2.2 ≠ "")
    (tail : List Body) (acc : List Thread) (c : String)
    (hurl : ∀ x ∈ c :: pages.map (fun x => x.2.2),
      newRequestURL (threadsURL s x) = some (threadsURL s x)) :
    ((threadsLoop ua tok s (pages.map (fun x => x.1) ++ tail) acc c).sent.map
        (fun r => r.url)).take (pages.length + 1) =
      (c :: pages.map (fun x => x.2.2)).map (threadsURL s) := by
  have hq : ∀ x ∈ c :: pages.map (fun x => x.2.2),
      threadsRequest ua tok s x = some (getRequest ua tok (threadsURL s x)) :=
    fun x hx => threadsRequest_of_unchanged (hurl x hx)
  obtain ⟨h1, -, -⟩ := threadsLoop_pages ua tok s pages hpages tail acc c
    (fun x hx => isSome_of_eq_some (hq x (mem_of_mem_dropLast_cons hx)))
  obtain ⟨more, hm⟩ := threadsLoop_sent_head ua tok s
    (hq _ (getLastD_mem_cons c (pages.map (fun x => x.2.2)))) tail
    (acc ++ pages.flatMap (fun x => x.2.1))
  rw [hm, List.map_cons, ← hq _ (getLastD_mem_cons c (pages.map (fun x => x.2.2))),
    List.append_cons, map_dropLast_append_getLastD] at h1
  obtain ⟨l1, l2, hl, hl1, -⟩ := List.map_eq_append_iff.1 h1
  have e1 : l1 = (c :: pages.map (fun x => x.2.2)).map
      (fun x => getRequest ua tok (threadsURL s x)) := eq_map_of_map_some hl1 hq
  rw [hl, e1, List.map_append, List.map_map]
  have hlen : ((c :: pages.map (fun x => x.2.2)).map
      ((fun r => r.url) ∘ fun a => getRequest ua tok (threadsURL s a))).length =
      pages.length + 1 := by simp
  rw [List.take_left' hlen]
  rfl

theorem commentsLoop_pages_urls (ua tok s t : String)
    (pages : List (Body × List Comment × String))
    (hpages : ∀ x ∈ pages, IsCommentsPage x.1 x.2.1 (some (JSON.str x.2.2)) ∧ x.2.2 ≠ "")
    (tail : List Body) (acc : List Comment) (c : String)
    (hurl : ∀ x ∈ c :: pages.map (fun x => x.2.2),
      newRequestURL (commentsURL s t x) = some (commentsURL s t x)) :
    ((commentsLoop ua tok s t (pages.map (fun x => x.1) ++ tail) acc c).sent.map
        (fun r => r.url)).take (pages.length + 1) =
      (c :: pages.map (fun x => x.2.2)).map (commentsURL s t) := by
  have hq : ∀ x ∈ c :: pages.map (fun x => x.2.2),
      commentsRequest ua tok s t x = some (getRequest ua tok (commentsURL s t x)) :=
    fun x hx => commentsRequest_of_unchanged (hurl x hx)
  obtain ⟨h1, -, -⟩ := commentsLoop_pages ua tok s t pages hpages tail acc c
    (fun x hx => isSome_of_eq_some (hq x (mem_of_mem_dropLast_cons hx)))
  obtain ⟨more, hm⟩ := commentsLoop_sent_head ua tok s t
    (hq _ (getLastD_mem_cons c (pages.map (fun x => x.2.2)))) tail
    (acc ++ pages.flatMap (fun x => x.2.1))
  rw [hm, List.map_cons, ← hq _ (getLastD_mem_cons c (pages.map (fun x => x.2.2))),
    List.append_cons, map_dropLast_append_getLastD] at h1
  obtain ⟨l1, l2, hl, hl1, -⟩ := List.map_eq_append_iff.1 h1
  have e1 : l1 = (c :: pages.map (fun x => x.2.2)).map
      (fun x => getRequest ua tok (commentsURL s t x)) := eq_map_of_map_some hl1 hq
  rw [hl, e1, List.map_append, List.map_map]
  have hlen : ((c :: pages.map (fun x => x.2.2)).map
      ((fun r => r.url) ∘ fun a => getRequest ua tok (commentsURL s t a))).length =
      pages.length + 1 := by simp
  rw [List.take_left' hlen]
  rfl

theorem plainByte_facts :
    ∀ n, n < 128 → shouldEscape n Encoding.path = false →
      32 ≤ n ∧ n ≠ 127 ∧ n ≠ 35 ∧ n ≠ 63 ∧ n ≠ 37 := by
  decide

theorem cutChar_not_mem (sep : Char) (l : List Char) (h : sep ∉ l) :
    cutChar sep l = (l, [], false) := by
  induction l with
  | nil => rfl
  | cons c l ih =>
    have hc : c ≠ sep := fun e => h (e ▸ List.mem_cons_self _ _)
    have hl : sep ∉ l := fun e => h (List.mem_cons_of_mem _ e)
    rw [cutChar, if_neg hc, ih hl]

theorem cutChar_append (sep : Char) (l r : List Char) (h : sep ∉ l) :
    cutChar sep (l ++ sep :: r) = (l, r, true) := by
  induction l with
  | nil => simp [cutChar]
  | cons c l ih =>
    have hc : c ≠ sep := fun e => h (e ▸ List.mem_cons_self _ _)
    have hl : sep ∉ l := fun e => h (List.mem_cons_of_mem _ e)
    rw [List.cons_append, cutChar, if_neg hc, ih hl]

theorem toBytes_ascii (l : List Char) (h : ∀ x ∈ l, x.toNat < 128) :
    toBytes l = l.map Char.toNat := by
  induction l with
  | nil => rfl
  | cons c l ih =>
    have hc := h c (List.mem_cons_self _ _)
    have e : toBytes (c :: l) = utf8Bytes c ++ toBytes l := by
      simp [toBytes]
    rw [e, ih (fun x hx => h x (List.mem_cons_of_mem _ hx)), utf8Bytes, if_pos hc]
    rfl

theorem unescapeBytesFrom_plain (bs : List Nat) (h : 37 ∉ bs) :
    unescapeBytesFrom 0 bs = some bs := by
  induction bs with
  | nil => rfl
  | cons b bs ih =>
    have hb : b ≠ 37 := fun e => h (e ▸ List.mem_cons_self _ _)
    simp only [unescapeBytesFrom, if_neg hb, ih (fun e => h (List.mem_cons_of_mem _ e))]
    rfl

theorem escape_plain (l : List Char) (mode : Encoding)
    (h : ∀ x ∈ l, shouldEscape x.toNat mode = false) :
    escape (l.map Char.toNat) mode = l := by
  induction l with
  | nil => rfl
  | cons c l ih =>
    have hc := h c (List.mem_cons_self _ _)
    have e : escape ((c :: l).map Char.toNat) mode =
        (if shouldEscape c.toNat mode then
          ['%', upperhex (c.toNat / 16), upperhex (c.toNat % 16)]
        else [Char.ofNat c.toNat]) ++ escape (l.map Char.toNat) mode := by
      simp [escape]
    rw [e, ih (fun x hx => h x (List.mem_cons_of_mem _ hx)), hc]
    simp

theorem origin_facts :
    '#' ∉ origin.data ∧ origin.data.any isCTL = false ∧ origin.data.length = 24 := by
  decide

theorem afterOrigin_append (rest : List Char) :
    afterOrigin (origin.data ++ '/' :: rest) = some ('/' :: rest) := by
  have hp : (origin.data ++ ['/']).isPrefixOf (origin.data ++ '/' :: rest) = true := by
    rw [List.isPrefixOf_iff_prefix]
    exact ⟨rest, by simp⟩
  unfold afterOrigin
  rw [if_pos hp, List.drop_left]

theorem count_pos_of_getLast? {l : List Char} {c : Char} (h : l.getLast? = some c) :
    0 < l.count c :=
  List.count_pos_iff.2 (List.mem_of_getLast?_eq_some h)

/-- A URL text made of the origin, a plain path and a query without control
character and `#` is accepted by `http.NewRequest`, and the URL it parses reads
back as the text. -/
theorem newRequestURL_plain (P R : List Char)
    (hP : ∀ x ∈ P, x.toNat < 128 ∧ shouldEscape x.toNat Encoding.path = false)
    (hR : ∀ x ∈ R, x ≠ '#' ∧ isCTL x = false) (hRne : R ≠ []) :
    newRequestURL (String.mk (origin.data ++ '/' :: P ++ '?' :: R)) =
      some (String.mk (origin.data ++ '/' :: P ++ '?' :: R)) := by
  have hP1 : ∀ x ∈ '/' :: P, x.toNat < 128 ∧ shouldEscape x.toNat Encoding.path = false := by
    intro x hx
    rcases List.mem_cons.1 hx with rfl | h
    · decide
    · exact hP x h
  have fP : ∀ x ∈ '/' :: P, x ≠ '#' ∧ x ≠ '?' ∧ x ≠ '%' ∧ isCTL x = false := by
    intro x hx
    obtain ⟨h1, h2⟩ := hP1 x hx
    obtain ⟨g1, g2, g3, g4, g5⟩ := plainByte_facts x.toNat h1 h2
    refine ⟨?_, ?_, ?_, ?_⟩
    · rintro rfl; exact g3 rfl
    · rintro rfl; exact g4 rfl
    · rintro rfl; exact g5 rfl
    · simp only [isCTL, Bool.or_eq_false_iff, decide_eq_false_iff_not, beq_eq_false_iff_ne]
      exact ⟨by omega, g2⟩
  have hmem : ∀ x ∈ origin.data ++ '/' :: P ++ '?' :: R,
      x ∈ origin.data ∨ x ∈ '/' :: P ∨ x = '?' ∨ x ∈ R := by
    intro x hx
    simp only [List.mem_append, List.mem_cons] at hx ⊢
    tauto
  have hhash : '#' ∉ origin.data ++ '/' :: P ++ '?' :: R := by
    intro h
    rcases hmem _ h with h | h | h | h
    · exact origin_facts.1 h
    · exact (fP _ h).1 rfl
    · exact absurd h (by decide)
    · exact (hR _ h).1 rfl
  have hctl : (origin.data ++ '/' :: P ++ '?' :: R).any isCTL = false := by
    rw [List.any_eq_false]
    intro x hx
    rcases hmem _ hx with h | h | h | h
    · have := List.any_eq_false.1 origin_facts.2.1 x h
      simpa using this
    · simp [(fP _ h).2.2.2]
    · subst h; decide
    · simp [(hR _ h).2]
  have hq : '?' ∉ '/' :: P := fun h => (fP _ h).2.1 rfl
  have hcount : ('/' :: P).count '?' = 0 := List.count_eq_zero.2 hq
  have hforce : ((('/' :: P) ++ '?' :: R).getLast? == some '?' &&
      (('/' :: P) ++ '?' :: R).count '?' == 1) = false := by
    rw [Bool.and_eq_false_iff]
    by_cases hl : (('/' :: P) ++ '?' :: R).getLast? = some '?'
    · right
      have hl2 : R.getLast? = some '?' := by
        rw [List.getLast?_append, List.getLast?_cons] at hl
        obtain ⟨r, rs, rfl⟩ := List.exists_cons_of_ne_nil hRne
        simpa [List.getLast?_cons] using hl
      have hc := count_pos_of_getLast? hl2
      have : (('/' :: P) ++ '?' :: R).count '?' = R.count '?' + 1 := by
        rw [List.count_append, hcount, List.count_cons_self]
        omega
      rw [this]
      simp
      omega
    · left
      simpa using hl
  have hun : unescape ('/' :: P) = some (('/' :: P).map Char.toNat) := by
    unfold unescape
    rw [toBytes_ascii _ (fun x hx => (hP1 x hx).1)]
    apply unescapeBytesFrom_plain
    intro h
    obtain ⟨x, hx, hx37⟩ := List.mem_map.1 h
    apply (fP x hx).2.2.1
    apply Char.ext
    apply UInt32.ext
    exact hx37
  have hesc : escape (('/' :: P).map Char.toNat) Encoding.path = '/' :: P :=
    escape_plain _ _ (fun x hx => (hP1 x hx).2)
  have hraw : rawHint ('/' :: P) (('/' :: P).map Char.toNat) Encoding.path = [] := by
    unfold rawHint
    rw [hesc, if_pos rfl]
  have hpart : escapedPart (('/' :: P).map Char.toNat) [] Encoding.path = '/' :: P := by
    unfold escapedPart
    rw [if_neg (by simp), if_neg (by simp), hesc]
  have hparse : parseURL (String.mk (origin.data ++ '/' :: P ++ '?' :: R)) =
      some { Path := ('/' :: P).map Char.toNat, RawPath := [], ForceQuery := false,
             RawQuery := R, Fragment := [], RawFragment := [] } := by
    unfold parseURL
    have e0 : origin.data ++ '/' :: P ++ '?' :: R = origin.data ++ '/' :: (P ++ '?' :: R) := by
      simp
    simp only [cutChar_not_mem _ _ hhash, hctl]
    rw [e0, afterOrigin_append]
    have e1 : '/' :: (P ++ '?' :: R) = ('/' :: P) ++ '?' :: R := rfl
    simp only [e1, hforce, cutChar_append _ _ _ hq, Bool.false_eq_true, if_false, if_true]
    rw [hun]
    simp only [hraw]
  unfold newRequestURL
  rw [hparse]
  simp only [Option.map_some', URL.String, hpart]
  simp [hRne]

theorem queryText_plain (c : String) (hc : queryPlain c) :
    (∀ x ∈ "raw_json=1&limit=10&after=".data ++ c.data, x ≠ '#' ∧ isCTL x = false) ∧
      "raw_json=1&limit=10&after=".data ++ c.data ≠ [] := by
  have h0 : ∀ x ∈ "raw_json=1&limit=10&after=".data, x ≠ '#' ∧ isCTL x = false := by decide
  refine ⟨?_, by simp⟩
  intro x hx
  rcases List.mem_append.1 hx with h | h
  · exact h0 x h
  · exact hc x h

/-- For a plain subreddit and a cursor without control character and `#`,
`http.NewRequest` accepts the listing URL and the URL it parses reads back as
the text. -/
theorem newRequestURL_threadsURL (s c : String) (hs : pathPlain s) (hc : queryPlain c) :
    newRequestURL (threadsURL s c) = some (threadsURL s c) := by
  have h1 : ∀ x ∈ "r/".data, x.toNat < 128 ∧ shouldEscape x.toNat Encoding.path = false := by
    decide
  have h2 : ∀ x ∈ "/hot".data, x.toNat < 128 ∧ shouldEscape x.toNat Encoding.path = false := by
    decide
  have hP : ∀ x ∈ "r/".data ++ s.data ++ "/hot".data,
      x.toNat < 128 ∧ shouldEscape x.toNat Encoding.path = false := by
    intro x hx
    rcases List.mem_append.1 hx with h | h
    · rcases List.mem_append.1 h with h | h
      · exact h1 x h
      · exact hs x h
    · exact h2 x h
  obtain ⟨hR, hRne⟩ := queryText_plain c hc
  have e : threadsURL s c = String.mk (origin.data ++ '/' :: ("r/".data ++ s.data ++ "/hot".data) ++
      '?' :: ("raw_json=1&limit=10&after=".data ++ c.data)) := by
    apply String.ext
    simp [threadsURL, origin, String.data_append]
  rw [e]
  exact newRequestURL_plain _ _ hP hR hRne

/-- For a plain subreddit and thread id and a cursor without control character
and `#`, `http.NewRequest` accepts the comments URL and the URL it parses reads
back as the text. -/
theorem newRequestURL_commentsURL (s t c : String) (hs : pathPlain s) (ht : pathPlain t)
    (hc : queryPlain c) :
    newRequestURL (commentsURL s t c) = some (commentsURL s t c) := by
  have h1 : ∀ x ∈ "r/".data, x.toNat < 128 ∧ shouldEscape x.toNat Encoding.path = false := by
    decide
  have h2 : ∀ x ∈ "/comments/".data,
      x.toNat < 128 ∧ shouldEscape x.toNat Encoding.path = false := by
    decide
  have hP : ∀ x ∈ "r/".data ++ s.data ++ "/comments/".data ++ t.data,
      x.toNat < 128 ∧ shouldEscape x.toNat Encoding.path = false := by
    intro x hx
    rcases List.mem_append.1 hx with h | h
    · rcases List.mem_append.1 h with h | h
      · rcases List.mem_append.1 h with h | h
        · exact h1 x h
        · exact hs x h
      · exact h2 x h
    · exact ht x h
  obtain ⟨hR, hRne⟩ := queryText_plain c hc
  have e : commentsURL s t c =
      String.mk (origin.data ++ '/' :: ("r/".data ++ s.data ++ "/comments/".data ++ t.data) ++
      '?' :: ("raw_json=1&limit=10&after=".data ++ c.data)) := by
    apply String.ext
    simp [commentsURL, origin, String.data_append]
  rw [e]
  exact newRequestURL_plain _ _ hP hR hRne

/-- C7, refuted as stated. For the subreddit `a b` the request which
`http.NewRequest` builds does not carry the URL text of the format: its path is
escaped anew, `/r/a%20b/hot`. And when the first page hands on the cursor
`a\nb`, the second request is never built: the process exits with one request
made and the second page unread. -/
theorem C7_url_escaped_or_rejected_counterexample :
    (getSubredditThreads "ua" "tok" "a b" [samplePage2]).sent.map (fun r => r.url) =
        ["https://oauth.reddit.com/r/a%20b/hot?raw_json=1&limit=10&after="] ∧
      "https://oauth.reddit.com/r/a%20b/hot?raw_json=1&limit=10&after=" ≠
        "https://oauth.reddit.com/r/" ++ "a b" ++ "/hot?raw_json=1&limit=10&after=" ++ "" ∧
      (getComments "ua" "tok" "Home" "a b" [sampleCommentsPage2]).sent.map (fun r => r.url) =
        ["https://oauth.reddit.com/r/Home/comments/a%20b?raw_json=1&limit=10&after="] ∧
      IsThreadPage sampleNewlinePage [{ ID := "1", Title := "a", URL := "u1" }]
        (some (JSON.str "a\nb")) ∧
      (getSubredditThreads "ua" "tok" "Home" [sampleNewlinePage, samplePage2]).sent.map
          (fun r => r.url) =
        ["https://oauth.reddit.com/r/Home/hot?raw_json=1&limit=10&after="] ∧
      (getSubredditThreads "ua" "tok" "Home" [sampleNewlinePage, samplePage2]).outcome =
        Outcome.exited ∧
      (getSubredditThreads "ua" "tok" "Home" [sampleNewlinePage, samplePage2]).rest.length = 1 :=
  ⟨by decide, by decide, by decide, sampleNewlinePage_is, by decide, by decide, by decide⟩

/-- C7, amended. Let s, t and the well-formed responses be such that
`http.NewRequest` accepts the URL text of every request and the URL it parses
reads back as that text (so it is when s and t consist of letters, digits and
the characters `-_.~$&+,/:;=@` and the cursors contain no control character and
no `#`). Then the k-th request of `getSubredditThreads` has URL
`https://oauth.reddit.com/r/<s>/hot?raw_json=1&limit=10&after=<c_k>` and the
k-th request of `getComments` has URL
`https://oauth.reddit.com/r/<s>/comments/<t>?raw_json=1&limit=10&after=<c_k>`,
where c_1 is empty and c_(k+1) is the `after` string of the k-th response; one
request is built per page: when the page after them stops the pagination these
are all the requests and nothing more of the transcript is consumed. -/
theorem C7_request_urls_follow_cursor (ua tok s t : String)
    (tpages : List (Body × List Thread × String)) (cpages : List (Body × List Comment × String))
    (tlast clast : Body) (tlastThreads : List Thread) (clastComments : List Comment)
    (tlastAfter clastAfter : Option JSON) (ttail ctail : List Body) :
    ((∀ x ∈ tpages, IsThreadPage x.1 x.2.1 (some (JSON.str x.2.2)) ∧ x.2.2 ≠ "") →
      (∀ x ∈ cpages, IsCommentsPage x.1 x.2.1 (some (JSON.str x.2.2)) ∧ x.2.2 ≠ "") →
      IsThreadPage tlast tlastThreads tlastAfter →
      IsCommentsPage clast clastComments clastAfter →
      nextCursor tlastAfter = none → nextCursor clastAfter = none →
      (∀ c ∈ "" :: tpages.map (fun x => x.2.2),
        newRequestURL
            ("https://oauth.reddit.com/r/" ++ s ++ "/hot?raw_json=1&limit=10&after=" ++ c) =
          some ("https://oauth.reddit.com/r/" ++ s ++ "/hot?raw_json=1&limit=10&after=" ++ c)) →
      (∀ c ∈ "" :: cpages.map (fun x => x.2.2),
        newRequestURL ("https://oauth.reddit.com/r/" ++ s ++ "/comments/" ++ t ++
            "?raw_json=1&limit=10&after=" ++ c) =
          some ("https://oauth.reddit.com/r/" ++ s ++ "/comments/" ++ t ++
            "?raw_json=1&limit=10&after=" ++ c)) →
      (((getSubredditThreads ua tok s (tpages.map (fun x => x.1) ++ ttail)).sent.map
          (fun r => r.url)).take (tpages.length + 1) =
        ("" :: tpages.map (fun x => x.2.2)).map
          (fun c => "https://oauth.reddit.com/r/" ++ s ++ "/hot?raw_json=1&limit=10&after=" ++ c)) ∧
      (((getComments ua tok s t (cpages.map (fun x => x.1) ++ ctail)).sent.map
          (fun r => r.url)).take (cpages.length + 1) =
        ("" :: cpages.map (fun x => x.2.2)).map
          (fun c => "https://oauth.reddit.com/r/" ++ s ++ "/comments/" ++ t ++
            "?raw_json=1&limit=10&after=" ++ c)) ∧
      ((getSubredditThreads ua tok s (tpages.map (fun x => x.1) ++ tlast :: ttail)).sent.map
          (fun r => r.url) =
        ("" :: tpages.map (fun x => x.2.2)).map
          (fun c => "https://oauth.reddit.com/r/" ++ s ++ "/hot?raw_json=1&limit=10&after=" ++ c)) ∧
      (getSubredditThreads ua tok s (tpages.map (fun x => x.1) ++ tlast :: ttail)).rest = ttail ∧
      ((getComments ua tok s t (cpages.map (fun x => x.1) ++ clast :: ctail)).sent.map
          (fun r => r.url) =
        ("" :: cpages.map (fun x => x.2.2)).map
          (fun c => "https://oauth.reddit.com/r/" ++ s ++ "/comments/" ++ t ++
            "?raw_json=1&limit=10&after=" ++ c)) ∧
      (getComments ua tok s t (cpages.map (fun x => x.1) ++ clast :: ctail)).rest = ctail) ∧
      (pathPlain s → pathPlain t → ∀ c : String, queryPlain c →
        newRequestURL
            ("https://oauth.reddit.com/r/" ++ s ++ "/hot?raw_json=1&limit=10&after=" ++ c) =
          some ("https://oauth.reddit.com/r/" ++ s ++ "/hot?raw_json=1&limit=10&after=" ++ c) ∧
        newRequestURL ("https://oauth.reddit.com/r/" ++ s ++ "/comments/" ++ t ++
            "?raw_json=1&limit=10&after=" ++ c) =
          some ("https://oauth.reddit.com/r/" ++ s ++ "/comments/" ++ t ++
            "?raw_json=1&limit=10&after=" ++ c)) := by
  refine ⟨fun ht hc htlast hclast htstop hcstop hturl hcurl => ?_, fun hs hpt c hq =>
    ⟨newRequestURL_threadsURL s c hs hq, newRequestURL_commentsURL s t c hs hpt hq⟩⟩
  have hturl1 : ∀ c ∈ "" :: tpages.map (fun x => x.2.2),
      newRequestURL (threadsURL s c) = some (threadsURL s c) := hturl
  have hcurl1 : ∀ c ∈ "" :: cpages.map (fun x => x.2.2),
      newRequestURL (commentsURL s t c) = some (commentsURL s t c) := hcurl
  obtain ⟨t1, t2, -⟩ := threadsLoop_pages_stop ua tok s tpages ht htlast htstop ttail [] ""
    (fun c h => isSome_of_eq_some (threadsRequest_of_unchanged (hturl1 c h)))
  obtain ⟨c1, c2, -⟩ := commentsLoop_pages_stop ua tok s t cpages hc hclast hcstop ctail [] ""
    (fun c h => isSome_of_eq_some (commentsRequest_of_unchanged (hcurl1 c h)))
  have t3 := eq_map_of_map_some t1 (fun c h => threadsRequest_of_unchanged (hturl1 c h))
  have c3 := eq_map_of_map_some c1 (fun c h => commentsRequest_of_unchanged (hcurl1 c h))
  refine ⟨threadsLoop_pages_urls ua tok s tpages ht ttail [] "" hturl1,
    commentsLoop_pages_urls ua tok s t cpages hc ctail [] "" hcurl1, ?_, t2, ?_, c2⟩
  · rw [getSubredditThreads, t3, List.map_map]; rfl
  · rw [getComments, c3, List.map_map]; rfl

/-- Instance of the amended C7: two thread pages and two comments pages, the
first of each handing on `c1`; subreddit, thread id and cursors are plain. -/
theorem C7_request_urls_follow_cursor_witness :
    ((((getSubredditThreads "ua" "tok" "Home" [samplePage1]).sent.map
          (fun r => r.url)).take 2 =
        ["https://oauth.reddit.com/r/Home/hot?raw_json=1&limit=10&after=",
          "https://oauth.reddit.com/r/Home/hot?raw_json=1&limit=10&after=c1"]) ∧
      (((getComments "ua" "tok" "Home" "t1" [sampleCommentsPage1]).sent.map
          (fun r => r.url)).take 2 =
        ["https://oauth.reddit.com/r/Home/comments/t1?raw_json=1&limit=10&after=",
          "https://oauth.reddit.com/r/Home/comments/t1?raw_json=1&limit=10&after=c1"]) ∧
      ((getSubredditThreads "ua" "tok" "Home" [samplePage1, samplePage2]).sent.map
          (fun r => r.url) =
        ["https://oauth.reddit.com/r/Home/hot?raw_json=1&limit=10&after=",
          "https://oauth.reddit.com/r/Home/hot?raw_json=1&limit=10&after=c1"]) ∧
      (getSubredditThreads "ua" "tok" "Home" [samplePage1, samplePage2]).rest = [] ∧
      ((getComments "ua" "tok" "Home" "t1" [sampleCommentsPage1, sampleCommentsPage2]).sent.map
          (fun r => r.url) =
        ["https://oauth.reddit.com/r/Home/comments/t1?raw_json=1&limit=10&after=",
          "https://oauth.reddit.com/r/Home/comments/t1?raw_json=1&limit=10&after=c1"]) ∧
      (getComments "ua" "tok" "Home" "t1" [sampleCommentsPage1, sampleCommentsPage2]).rest =
        []) ∧
      (newRequestURL
          ("https://oauth.reddit.com/r/" ++ "Home" ++ "/hot?raw_json=1&limit=10&after=" ++ "c1") =
        some ("https://oauth.reddit.com/r/" ++ "Home" ++ "/hot?raw_json=1&limit=10&after=" ++
          "c1") ∧
      newRequestURL ("https://oauth.reddit.com/r/" ++ "Home" ++ "/comments/" ++ "t1" ++
          "?raw_json=1&limit=10&after=" ++ "c1") =
        some ("https://oauth.reddit.com/r/" ++ "Home" ++ "/comments/" ++ "t1" ++
          "?raw_json=1&limit=10&after=" ++ "c1")) :=
  have h := C7_request_urls_follow_cursor "ua" "tok" "Home" "t1"
    [(samplePage1,
      [{ ID := "1", Title := "a", URL := "u1" }, { ID := "2", Title := "b", URL := "u2" }], "c1")]
    [(sampleCommentsPage1,
      [{ ID := "k1", Body := "hello", Author := "ann", Created := 1700000000 }], "c1")]
    samplePage2 sampleCommentsPage2 [{ ID := "3", Title := "c", URL := "u3" }]
    [{ ID := "k2", Body := "bye", Author := "cid", Created := 1700000002 }]
    none (some JSON.null) [] []
  ⟨h.1
    (by
      intro x hx
      rw [List.mem_singleton] at hx
      subst hx
      exact ⟨samplePage1_is, by decide⟩)
    (by
      intro x hx
      rw [List.mem_singleton] at hx
      subst hx
      exact ⟨sampleCommentsPage1_is, by decide⟩)
    samplePage2_is sampleCommentsPage2_is rfl rfl
    (by decide) (by decide),
    h.2 (by decide) (by decide) "c1" (by decide)⟩

/-- C8, refuted as stated. A malformed response is not read when its request
cannot be built: for the thread id `a\nb`, and after a page that hands on the
cursor `a\nb`, `http.NewRequest` rejects the URL and the fetcher exits
(`log.Fatalf`) instead of faulting on the malformed response. -/
theorem C8_unbuildable_request_exits_counterexample :
    CommentsPageMalformed sampleBadCommentsPage ∧
      (getComments "ua" "tok" "Home" "a\nb" [sampleBadCommentsPage]).outcome = Outcome.exited ∧
      (getComments "ua" "tok" "Home" "a\nb" [sampleBadCommentsPage]).rest.length = 1 ∧
      IsThreadPage sampleNewlinePage [{ ID := "1", Title := "a", URL := "u1" }]
        (some (JSON.str "a\nb")) ∧
      ThreadPageMalformed sampleBadThreadPage ∧
      (getSubredditThreads "ua" "tok" "Home" [sampleNewlinePage, sampleBadThreadPage]).outcome =
        Outcome.exited ∧
      (getSubredditThreads "ua" "tok" "Home"
        [sampleNewlinePage, sampleBadThreadPage]).rest.length = 1 :=
  ⟨sampleBadCommentsPage_malformed, by decide, by decide, sampleNewlinePage_is,
    sampleBadThreadPage_malformed, by decide, by decide⟩

/-- C8, amended. A malformed response whose request can be built makes the
fetcher fault instead of returning: after any number of well-formed pages, all
requests being accepted by `http.NewRequest`, a thread-listing response that is
no listing object or has a child without an object `data` with string `id`,
`title`, `url` ends `getSubredditThreads` in a runtime fault, the threads of the
earlier pages being lost; and a comments response whose element 1 is no listing
object or has a child without string `id`, `body`, `author` or numeric
`created_utc` ends `getComments` in a runtime fault. -/
theorem C8_malformed_response_faults (ua tok s t : String)
    (tpages : List (Body × List Thread × String)) (cpages : List (Body × List Comment × String))
    (tbad cbad : Body) (ttail ctail : List Body)
    (ht : ∀ x ∈ tpages, IsThreadPage x.1 x.2.1 (some (JSON.str x.2.2)) ∧ x.2.2 ≠ "")
    (hc : ∀ x ∈ cpages, IsCommentsPage x.1 x.2.1 (some (JSON.str x.2.2)) ∧ x.2.2 ≠ "")
    (htbad : ThreadPageMalformed tbad) (hcbad : CommentsPageMalformed cbad)
    (hturl : ∀ c ∈ "" :: tpages.map (fun x => x.2.2),
      (newRequestURL (threadsURL s c)).isSome = true)
    (hcurl : ∀ c ∈ "" :: cpages.map (fun x => x.2.2),
      (newRequestURL (commentsURL s t c)).isSome = true) :
    (getSubredditThreads ua tok s (tpages.map (fun x => x.1) ++ tbad :: ttail)).outcome =
        Outcome.panicked ∧
      (getComments ua tok s t (cpages.map (fun x => x.1) ++ cbad :: ctail)).outcome =
        Outcome.panicked := by
  obtain ⟨-, -, t3⟩ := threadsLoop_pages ua tok s tpages ht (tbad :: ttail) [] ""
    (fun c h => threadsRequest_isSome ua tok (hturl c (mem_of_mem_dropLast_cons h)))
  obtain ⟨-, -, c3⟩ := commentsLoop_pages ua tok s t cpages hc (cbad :: ctail) [] ""
    (fun c h => commentsRequest_isSome ua tok (hcurl c (mem_of_mem_dropLast_cons h)))
  obtain ⟨q, hq⟩ := Option.isSome_iff_exists.1 (threadsRequest_isSome ua tok
    (hturl _ (getLastD_mem_cons "" (tpages.map (fun x => x.2.2)))))
  obtain ⟨q1, hq1⟩ := Option.isSome_iff_exists.1 (commentsRequest_isSome ua tok
    (hcurl _ (getLastD_mem_cons "" (cpages.map (fun x => x.2.2)))))
  rw [threadsLoop_fault ua tok s hq (not_threadPage_of_malformed htbad)] at t3
  rw [commentsLoop_fault ua tok s t hq1 (not_commentsPage_of_malformed hcbad)] at c3
  exact ⟨t3, c3⟩

/-- Instance of the amended C8: after one well-formed page, a thread listing
whose `data` is a string, and a comment listing with a child of kind `more`. -/
theorem C8_malformed_response_faults_witness :
    (getSubredditThreads "ua" "tok" "Home" [samplePage1, sampleBadThreadPage]).outcome =
        Outcome.panicked ∧
      (getComments "ua" "tok" "Home" "t1" [sampleCommentsPage1, sampleBadCommentsPage]).outcome =
        Outcome.panicked :=
  C8_malformed_response_faults "ua" "tok" "Home" "t1"
    [(samplePage1, _, "c1")] [(sampleCommentsPage1, _, "c1")]
    sampleBadThreadPage sampleBadCommentsPage [] []
    (by
      intro x hx
      rw [List.mem_singleton] at hx
      subst hx
      exact ⟨samplePage1_is, by decide⟩)
    (by
      intro x hx
      rw [List.mem_singleton] at hx
      subst hx
      exact ⟨sampleCommentsPage1_is, by decide⟩)
    sampleBadThreadPage_malformed sampleBadCommentsPage_malformed (by decide) (by decide)

theorem shared_loops (ua tok s t : String) (pages : List SharedPage)
    (h : ∀ x ∈ pages, x.WellFormed) (accT : List Thread) (accC : List Comment) (c : String)
    (hurl : ∀ x ∈ c :: pages.filterMap (fun x => nextCursor x.after),
      (newRequestURL (threadsURL s x)).isSome = true ∧
        (newRequestURL (commentsURL s t x)).isSome = true) :
    ∃ (cursors : List String) (k : Nat),
      cursors = (pages.take k).filterMap (fun x => nextCursor x.after) ∧
      (threadsLoop ua tok s (pages.map SharedPage.threadsBody) accT c).sent.map some =
          (c :: cursors).map (threadsRequest ua tok s) ∧
        (commentsLoop ua tok s t (pages.map SharedPage.commentsBody) accC c).sent.map some =
          (c :: cursors).map (commentsRequest ua tok s t) ∧
        (threadsLoop ua tok s (pages.map SharedPage.threadsBody) accT c).rest =
          (pages.drop k).map SharedPage.threadsBody ∧
        (commentsLoop ua tok s t (pages.map SharedPage.commentsBody) accC c).rest =
          (pages.drop k).map SharedPage.commentsBody ∧
        (((threadsLoop ua tok s (pages.map SharedPage.threadsBody) accT c).outcome =
              Outcome.exited ∧
            (commentsLoop ua tok s t (pages.map SharedPage.commentsBody) accC c).outcome =
              Outcome.exited ∧ k = pages.length ∧ cursors.length = k) ∨
          ((threadsLoop ua tok s (pages.map SharedPage.threadsBody) accT c).outcome =
              Outcome.returned (accT ++ (pages.take k).flatMap (fun x => x.threads)) ∧
            (commentsLoop ua tok s t (pages.map SharedPage.commentsBody) accC c).outcome =
              Outcome.returned (accC ++ (pages.take k).flatMap (fun x => x.comments)) ∧
            cursors.length + 1 = k ∧ k ≤ pages.length)) := by
  induction pages generalizing accT accC c with
  | nil =>
    obtain ⟨q, hq⟩ := Option.isSome_iff_exists.1
      (threadsRequest_isSome ua tok (hurl c (List.mem_cons_self _ _)).1)
    obtain ⟨q1, hq1⟩ := Option.isSome_iff_exists.1
      (commentsRequest_isSome ua tok (hurl c (List.mem_cons_self _ _)).2)
    refine ⟨[], 0, rfl, ?_, ?_, ?_, ?_, Or.inl ⟨?_, ?_, rfl, rfl⟩⟩
    · simp [threadsLoop_nil ua tok s hq, hq]
    · simp [commentsLoop_nil ua tok s t hq1, hq1]
    · simp [threadsLoop_nil ua tok s hq]
    · simp [commentsLoop_nil ua tok s t hq1]
    · simp [threadsLoop_nil ua tok s hq]
    · simp [commentsLoop_nil ua tok s t hq1]
  | cons x xs ih =>
    obtain ⟨q, hq⟩ := Option.isSome_iff_exists.1
      (threadsRequest_isSome ua tok (hurl c (List.mem_cons_self _ _)).1)
    obtain ⟨q1, hq1⟩ := Option.isSome_iff_exists.1
      (commentsRequest_isSome ua tok (hurl c (List.mem_cons_self _ _)).2)
    obtain ⟨hl, hts, hcs⟩ := h x (List.mem_cons_self _ _)
    have hxs : ∀ y ∈ xs, y.WellFormed := fun y hy => h y (List.mem_cons_of_mem _ hy)
    have hT : IsThreadPage x.threadsBody x.threads x.after := ⟨_, _, rfl, hl, hts⟩
    have hC : IsCommentsPage x.commentsBody x.comments x.after := ⟨_, _, _, rfl, rfl, hl, hcs⟩
    simp only [List.map_cons]
    rw [threadsLoop_page ua tok s hq hT, commentsLoop_page ua tok s t hq1 hC]
    rcases hn : nextCursor x.after with _ | a
    · refine ⟨[], 1, ?_, ?_, ?_, ?_, ?_, Or.inr ⟨?_, ?_, rfl, ?_⟩⟩ <;> simp [hq, hq1, hn]
    · have hurl1 : ∀ y ∈ a :: xs.filterMap (fun x => nextCursor x.after),
          (newRequestURL (threadsURL s y)).isSome = true ∧
            (newRequestURL (commentsURL s t y)).isSome = true := by
        intro y hy
        apply hurl y
        have e : (x :: xs).filterMap (fun x => nextCursor x.after) =
            a :: xs.filterMap (fun x => nextCursor x.after) :=
          List.filterMap_cons_some hn
        rw [e]
        exact List.mem_cons_of_mem _ hy
      obtain ⟨cursors, k, h0, h1, h2, h3, h4, h5⟩ :=
        ih hxs (accT ++ x.threads) (accC ++ x.comments) a hurl1
      refine ⟨a :: cursors, k + 1, ?_, ?_, ?_, ?_, ?_, ?_⟩
      · have e : (x :: List.take k xs).filterMap (fun x => nextCursor x.after) =
            a :: (List.take k xs).filterMap (fun x => nextCursor x.after) :=
          List.filterMap_cons_some hn
        rw [List.take_succ_cons, e, h0]
      · simp only [List.map_cons, h1, hq]
      · simp only [List.map_cons, h2, hq1]
      · simpa using h3
      · simpa using h4
      · rcases h5 with ⟨e1, e2, e3, e4⟩ | ⟨e1, e2, e3, e4⟩
        · left
          exact ⟨e1, e2, by simp [e3], by simp [e4]⟩
        · right
          refine ⟨?_, ?_, by simp [e3], by simp; omega⟩
          · simp only [e1, List.take_succ_cons, List.flatMap_cons, List.append_assoc]
          · simp only [e2, List.take_succ_cons, List.flatMap_cons, List.append_assoc]

/-- C9, refuted as stated. The two well-formed shared pages are served to both
fetchers, with the thread id `a\nb`: `getSubredditThreads` makes two requests
and returns, while `getComments` makes no request at all and exits, its first
URL being rejected by `http.NewRequest`. -/
theorem C9_unbuildable_thread_id_counterexample :
    (∀ x ∈ sampleSharedPages, x.WellFormed) ∧
      (getSubredditThreads "ua" "tok" "Home"
        (sampleSharedPages.map SharedPage.threadsBody)).sent.length = 2 ∧
      (getSubredditThreads "ua" "tok" "Home"
        (sampleSharedPages.map SharedPage.threadsBody)).outcome =
        Outcome.returned [{ ID := "x1", Title := "t", URL := "u" },
          { ID := "x2", Title := "t", URL := "u" }] ∧
      (getComments "ua" "tok" "Home" "a\nb"
        (sampleSharedPages.map SharedPage.commentsBody)).sent.length = 0 ∧
      (getComments "ua" "tok" "Home" "a\nb"
        (sampleSharedPages.map SharedPage.commentsBody)).outcome = Outcome.exited :=
  ⟨sampleSharedPages_wellFormed, by decide, by decide, by decide, by decide⟩

/-- C9, amended. The two fetchers follow the cursor the same way when their
requests can be built: let the listing endpoint answer the well-formed listings
L_1, L_2, ... and the comments endpoint the arrays [P_i, L_i], and let
`http.NewRequest` accept the URLs of both fetchers for the empty cursor and for
every cursor the listings hand on. Then both fetchers request the same sequence
of cursors (the empty one, then the cursors which the first k listings hand
on), both consume the same number k of pages, and either both run out of
responses or both return: the one the threads, the other the comments of the
children of the first k pages, one record per child and in the order of the
children. -/
theorem C9_fetchers_follow_cursor_alike (ua tok s t : String) (pages : List SharedPage)
    (h : ∀ x ∈ pages, x.WellFormed)
    (hurl : ∀ c ∈ "" :: pages.filterMap (fun x => nextCursor x.after),
      (newRequestURL (threadsURL s c)).isSome = true ∧
        (newRequestURL (commentsURL s t c)).isSome = true) :
    ∃ (cursors : List String) (k : Nat),
      cursors = "" :: (pages.take k).filterMap (fun x => nextCursor x.after) ∧
      (getSubredditThreads ua tok s (pages.map SharedPage.threadsBody)).sent.map some =
          cursors.map (threadsRequest ua tok s) ∧
        (getComments ua tok s t (pages.map SharedPage.commentsBody)).sent.map some =
          cursors.map (commentsRequest ua tok s t) ∧
        (getSubredditThreads ua tok s (pages.map SharedPage.threadsBody)).rest =
          (pages.drop k).map SharedPage.threadsBody ∧
        (getComments ua tok s t (pages.map SharedPage.commentsBody)).rest =
          (pages.drop k).map SharedPage.commentsBody ∧
        (((getSubredditThreads ua tok s (pages.map SharedPage.threadsBody)).outcome =
              Outcome.exited ∧
            (getComments ua tok s t (pages.map SharedPage.commentsBody)).outcome =
              Outcome.exited ∧ k = pages.length) ∨
          (∃ (ts : List Thread) (cs : List Comment),
            (getSubredditThreads ua tok s (pages.map SharedPage.threadsBody)).outcome =
              Outcome.returned ts ∧
            (getComments ua tok s t (pages.map SharedPage.commentsBody)).outcome =
              Outcome.returned cs ∧
            cursors.length = k ∧
            List.Forall₂ IsThreadChild ((pages.take k).flatMap (fun x => x.children)) ts ∧
            List.Forall₂ IsCommentChild ((pages.take k).flatMap (fun x => x.children)) cs)) := by
  obtain ⟨cursors, k, h0, h1, h2, h3, h4, h5⟩ := shared_loops ua tok s t pages h [] [] "" hurl
  refine ⟨"" :: cursors, k, by rw [h0], h1, h2, h3, h4, ?_⟩
  rcases h5 with ⟨e1, e2, e3, -⟩ | ⟨e1, e2, e3, -⟩
  · exact Or.inl ⟨e1, e2, e3⟩
  · refine Or.inr ⟨_, _, e1, e2, by simp [e3], ?_, ?_⟩
    · simp only [List.nil_append]
      exact forall₂_flatMap _ _ _ (fun x hx => (h x (List.mem_of_mem_take hx)).2.1)
    · simp only [List.nil_append]
      exact forall₂_flatMap _ _ _ (fun x hx => (h x (List.mem_of_mem_take hx)).2.2)

/-- Instance of the amended C9: the two shared sample pages, thread id `t1`. -/
theorem C9_fetchers_follow_cursor_alike_witness :
    ∃ (cursors : List String) (k : Nat),
      cursors = "" :: (sampleSharedPages.take k).filterMap (fun x => nextCursor x.after) ∧
      (getSubredditThreads "ua" "tok" "Home"
          (sampleSharedPages.map SharedPage.threadsBody)).sent.map some =
          cursors.map (threadsRequest "ua" "tok" "Home") ∧
        (getComments "ua" "tok" "Home" "t1"
          (sampleSharedPages.map SharedPage.commentsBody)).sent.map some =
          cursors.map (commentsRequest "ua" "tok" "Home" "t1") ∧
        (getSubredditThreads "ua" "tok" "Home"
          (sampleSharedPages.map SharedPage.threadsBody)).rest =
          (sampleSharedPages.drop k).map SharedPage.threadsBody ∧
        (getComments "ua" "tok" "Home" "t1"
          (sampleSharedPages.map SharedPage.commentsBody)).rest =
          (sampleSharedPages.drop k).map SharedPage.commentsBody ∧
        (((getSubredditThreads "ua" "tok" "Home"
              (sampleSharedPages.map SharedPage.threadsBody)).outcome = Outcome.exited ∧
            (getComments "ua" "tok" "Home" "t1"
              (sampleSharedPages.map SharedPage.commentsBody)).outcome = Outcome.exited ∧
            k = sampleSharedPages.length) ∨
          (∃ (ts : List Thread) (cs : List Comment),
            (getSubredditThreads "ua" "tok" "Home"
              (sampleSharedPages.map SharedPage.threadsBody)).outcome = Outcome.returned ts ∧
            (getComments "ua" "tok" "Home" "t1"
              (sampleSharedPages.map SharedPage.commentsBody)).outcome = Outcome.returned cs ∧
            cursors.length = k ∧
            List.Forall₂ IsThreadChild
              ((sampleSharedPages.take k).flatMap (fun x => x.children)) ts ∧
            List.Forall₂ IsCommentChild
              ((sampleSharedPages.take k).flatMap (fun x => x.children)) cs)) :=
  C9_fetchers_follow_cursor_alike "ua" "tok" "Home" "t1" sampleSharedPages
    sampleSharedPages_wellFormed (by decide)

/-- The runs of the two fetchers on the shared sample pages, evaluated. -/
theorem sampleSharedPages_runs :
    (getSubredditThreads "ua" "tok" "Home"
        (sampleSharedPages.map SharedPage.threadsBody)).outcome =
        Outcome.returned [{ ID := "x1", Title := "t", URL := "u" },
          { ID := "x2", Title := "t", URL := "u" }] ∧
      (getComments "ua" "tok" "Home" "t1"
        (sampleSharedPages.map SharedPage.commentsBody)).outcome =
        Outcome.returned [{ ID := "x1", Body := "b", Author := "a", Created := 7 },
          { ID := "x2", Body := "b", Author := "a", Created := 7 }] := by
  decide

/-- C10, refuted as stated. The response is a well-formed single page, but the
thread id `a\nb` has a control character: `http.NewRequest` rejects the URL and
`getComments` exits without reading the response, returning no comment. -/
theorem C10_unbuildable_thread_id_counterexample :
    IsCommentsPage sampleCommentsPage2
        [{ ID := "k2", Body := "bye", Author := "cid", Created := 1700000002 }]
        (some JSON.null) ∧
      nextCursor (some JSON.null) = none ∧
      (getComments "ua" "tok" "Home" "a\nb" [sampleCommentsPage2]).outcome = Outcome.exited ∧
      (getComments "ua" "tok" "Home" "a\nb" [sampleCommentsPage2]).sent.length = 0 ∧
      (getComments "ua" "tok" "Home" "a\nb" [sampleCommentsPage2]).rest.length = 1 :=
  ⟨sampleCommentsPage2_is, rfl, by decide, by decide, by decide⟩

/-- C10, amended. When the request can be built (`http.NewRequest` accepts the
comments URL of subreddit and thread id with the empty cursor), `getComments`
extracts only the top-level children of the listing: on a well-formed
single-page response `[P, L]` it returns the comments the children of L denote,
one per child and in order, each built from the child's `id`, `body`, `author`
and `created_utc`; and any response `[P1, L1]` whose children differ from those
of L at most in their `replies` gives the same list. -/
theorem C10_getComments_top_level_children_only (ua tok s t : String) (P L : JSON)
    (children : List JSON) (after : Option JSON) (cs : List Comment) (tail : List Body)
    (hl : IsListing L children after) (hcs : List.Forall₂ IsCommentChild children cs)
    (hstop : nextCursor after = none)
    (hurl : (newRequestURL (commentsURL s t "")).isSome = true) :
    (getComments ua tok s t (some (JSON.arr [P, L]) :: tail)).outcome = Outcome.returned cs ∧
      cs.length = children.length ∧
      ∀ (P1 L1 : JSON) (children1 : List JSON) (after1 : Option JSON) (tail1 : List Body),
        IsListing L1 children1 after1 → List.Forall₂ SameButReplies children children1 →
        nextCursor after1 = none →
        (getComments ua tok s t (some (JSON.arr [P1, L1]) :: tail1)).outcome =
          Outcome.returned cs := by
  obtain ⟨q, hq⟩ := Option.isSome_iff_exists.1
    (commentsRequest_isSome ua tok hurl)
  have key : ∀ (P1 L1 : JSON) (children1 : List JSON) (after1 : Option JSON)
      (tail1 : List Body), IsListing L1 children1 after1 →
      List.Forall₂ IsCommentChild children1 cs → nextCursor after1 = none →
      (getComments ua tok s t (some (JSON.arr [P1, L1]) :: tail1)).outcome =
        Outcome.returned cs := by
    intro P1 L1 children1 after1 tail1 h1 h2 h3
    have hp : IsCommentsPage (some (JSON.arr [P1, L1])) cs after1 :=
      ⟨_, _, _, rfl, rfl, h1, h2⟩
    rw [getComments, commentsLoop_page_stop ua tok s t hq hp h3]
    rfl
  refine ⟨key P L children after tail hl hcs hstop, hcs.length_eq.symm, ?_⟩
  intro P1 L1 children1 after1 tail1 h1 h2 h3
  exact key P1 L1 children1 after1 tail1 h1 (forall₂_of_sameButReplies h2 hcs) h3

/-- Instance of the amended C10: a page with one comment that has a nested
listing of replies; in particular the same comment without `replies` member
gives the same result. -/
theorem C10_getComments_top_level_children_only_witness :
    ((getComments "ua" "tok" "Home" "t1"
        [some (JSON.arr [JSON.null,
          sampleListing [sampleCommentChild "k1" "hello" "ann" 1700000000
            (some (sampleListing [sampleCommentChild "k9" "nested" "bob" 1700000001 none]
              JSON.null))] JSON.null])]).outcome =
        Outcome.returned [sampleComment] ∧
      [sampleComment].length =
        [sampleCommentChild "k1" "hello" "ann" 1700000000
          (some (sampleListing [sampleCommentChild "k9" "nested" "bob" 1700000001 none]
            JSON.null))].length ∧
      ∀ (P1 L1 : JSON) (children1 : List JSON) (after1 : Option JSON) (tail1 : List Body),
        IsListing L1 children1 after1 →
        List.Forall₂ SameButReplies
          [sampleCommentChild "k1" "hello" "ann" 1700000000
            (some (sampleListing [sampleCommentChild "k9" "nested" "bob" 1700000001 none]
              JSON.null))] children1 →
        nextCursor after1 = none →
        (getComments "ua" "tok" "Home" "t1" (some (JSON.arr [P1, L1]) :: tail1)).outcome =
          Outcome.returned [sampleComment]) ∧
      (getComments "ua" "tok" "Home" "t1"
        [some (JSON.arr [JSON.str "post",
          sampleListing [sampleCommentChild "k1" "hello" "ann" 1700000000 none]
            JSON.null])]).outcome =
        Outcome.returned [sampleComment] :=
  have h := C10_getComments_top_level_children_only "ua" "tok" "Home" "t1" JSON.null
    (sampleListing [sampleCommentChild "k1" "hello" "ann" 1700000000
      (some (sampleListing [sampleCommentChild "k9" "nested" "bob" 1700000001 none]
        JSON.null))] JSON.null)
    _ (some JSON.null)
    [sampleComment] []
    (sampleListing_is _ _)
    (List.Forall₂.cons (sampleCommentChild_is _ _ _ _ _ (by decide)) List.Forall₂.nil) rfl
    (by decide)
  ⟨h, h.2.2 (JSON.str "post") _ _ (some JSON.null) [] (sampleListing_is _ _)
    (List.Forall₂.cons (sampleComment_sameButReplies _ _ _ _ _ _) List.Forall₂.nil) rfl⟩

/-- C6, amended. For every username u and password p the body of the token
request is the text `grant_type=password&username=<u>&password=<p>` with u and p
inserted as they are, without escaping; and when neither u nor p contains `&`,
`+` or `%`, decoding the body as a form yields exactly the three fields
grant_type=password, username=u, password=p. -/
theorem C6_token_body_verbatim (env : Env) :
    (tokenRequest env).body =
        "grant_type=password&username=" ++ env.USERNAME ++ "&password=" ++ env.PASSWORD ∧
      (formPlain env.USERNAME → formPlain env.PASSWORD →
        decodeForm (tokenRequest env).body =
          [("grant_type", "password"), ("username", env.USERNAME),
            ("password", env.PASSWORD)]) := by
  have hb : (tokenRequest env).body =
      "grant_type=password&username=" ++ env.USERNAME ++ "&password=" ++ env.PASSWORD :=
    sprintf_tokenBody _ _
  exact ⟨hb, fun hu hp => by rw [hb]; exact decodeForm_tokenBody _ _ hu hp⟩

/-- Instance of the amended C6: a username with `=` and a space, a password
with a space. -/
theorem C6_token_body_verbatim_witness :
    (tokenRequest { sampleEnv with USERNAME := "user name=x", PASSWORD := "pa ss" }).body =
        "grant_type=password&username=" ++ "user name=x" ++ "&password=" ++ "pa ss" ∧
      decodeForm
          (tokenRequest { sampleEnv with USERNAME := "user name=x", PASSWORD := "pa ss" }).body =
        [("grant_type", "password"), ("username", "user name=x"), ("password", "pa ss")] :=
  ⟨(C6_token_body_verbatim
      { sampleEnv with USERNAME := "user name=x", PASSWORD := "pa ss" }).1,
    (C6_token_body_verbatim
      { sampleEnv with USERNAME := "user name=x", PASSWORD := "pa ss" }).2
      (by decide) (by decide)⟩

theorem cutChar_append_left (sep : Char) (l r : List Char) (h : sep ∉ l) :
    (cutChar sep (l ++ r)).1 = l ++ (cutChar sep r).1 := by
  induction l with
  | nil => rfl
  | cons c l ih =>
    have hc : c ≠ sep := fun e => h (e ▸ List.mem_cons_self _ _)
    have hl : sep ∉ l := fun e => h (List.mem_cons_of_mem _ e)
    rw [List.cons_append, cutChar, if_neg hc, ih hl]
    rfl

/-- The URL texts of the two fetchers start with the origin, also once their
fragment is cut off: the case of `parseURL` for other texts does not arise. -/
theorem afterOrigin_fetcher_texts (s t c : String) :
    (∃ rest, afterOrigin (cutChar '#' (sprintf SubredditURL [s, c]).data).1 = some rest) ∧
      ∃ rest, afterOrigin (cutChar '#' (sprintf CommentsURL [s, t, c]).data).1 = some rest := by
  have h0 : '#' ∉ origin.data ++ ['/'] := by decide
  constructor
  · have e : (sprintf SubredditURL [s, c]).data = (origin.data ++ ['/']) ++
        ("r/".data ++ s.data ++ "/hot?raw_json=1&limit=10&after=".data ++ c.data) := by
      rw [sprintf_SubredditURL]
      simp [threadsURL, origin, String.data_append]
    rw [e, cutChar_append_left _ _ _ h0, List.append_assoc, List.singleton_append,
      afterOrigin_append]
    exact ⟨_, rfl⟩
  · have e : (sprintf CommentsURL [s, t, c]).data = (origin.data ++ ['/']) ++
        ("r/".data ++ s.data ++ "/comments/".data ++ t.data ++
          "?raw_json=1&limit=10&after=".data ++ c.data) := by
      rw [sprintf_CommentsURL]
      simp [commentsURL, origin, String.data_append]
    rw [e, cutChar_append_left _ _ _ h0, List.append_assoc, List.singleton_append,
      afterOrigin_append]
    exact ⟨_, rfl⟩

end RedditScraper
